import Mathlib

/-!
Verification development for the signal-bot repository (two scripts:
src/bot.py, a first-half-over-0.5 FlashScore bot, and the api-football
prematch TB2.5 bot in the second source file).  Python functions are
shallowly embedded as Lean functions; remote HTTP calls are modelled by
oracle parameters (the response the call would return), machine floats by
rationals, and JSON fields that may be absent or null by Option.
-/

namespace SignalBot

/-! ## Remote match rows (api-football bot)

A row of an api-football fixtures response, restricted to the fields the
code reads: the goals object (either goal count may be absent or null) and
the fixture status short code. -/

/-- One head-to-head / team-form match row: m.get("goals", \x7b\x7d).get("home"),
m.get("goals", \x7b\x7d).get("away"); absent or null goals are modelled by none. -/
structure MatchRow where
  goals_home : Option Nat
  goals_away : Option Nat
deriving DecidableEq, Repr

/-- One row of a fixtures-by-id response: adds the status short code
m.get("fixture", \x7b\x7d).get("status", \x7b\x7d).get("short"). -/
structure FixRow where
  status : Option String
  goals_home : Option Nat
  goals_away : Option Nat
deriving DecidableEq, Repr

/-- Embedding of h2h_total_goals (second source, lines 94-102): for each
returned row, gh = goals.home or 0, ga = goals.away or 0, collect gh+ga.
The Python or-0 coalescing of an absent/null field is Option.getD 0. -/
def h2h_total_goals (rows : List MatchRow) : List Nat :=
  rows.map (fun m => m.goals_home.getD 0 + m.goals_away.getD 0)

/-- Embedding of team_last_totals (second source, lines 104-111): same
or-0 coalescing over the team's last matches. -/
def team_last_totals (rows : List MatchRow) : List Nat :=
  rows.map (fun m => m.goals_home.getD 0 + m.goals_away.getD 0)

/-- Embedding of fixture_score (second source, lines 138-146).  The api
oracle gives the response list for a fixture id; an empty response (api
error included, since api_get returns [] on any failure) yields
(None, None), otherwise the first row's status and or-0 coalesced total. -/
def fixture_score (api : Nat → List FixRow) (fid : Nat) : Option String × Option Nat :=
  match api fid with
  | [] => (none, none)
  | m :: _ => (m.status, some (m.goals_home.getD 0 + m.goals_away.getD 0))

/-- Replace absent goals fields of a h2h/form row by a literal 0. -/
def fillZeroMatch (m : MatchRow) : MatchRow :=
  ⟨some (m.goals_home.getD 0), some (m.goals_away.getD 0)⟩

/-- Replace absent goals fields of a fixtures-by-id row by a literal 0. -/
def fillZeroFix (m : FixRow) : FixRow :=
  ⟨m.status, some (m.goals_home.getD 0), some (m.goals_away.getD 0)⟩

/-! ## Rule filters (api-football bot) -/

/-- H2H parameters of the second source: take the last 3, require 2 of
them to be total-over-2.5. -/
def H2H_REQUIRE_TB : Nat := 2

/-- Form parameter: of the last 2 matches at least 1 with total goals 3+. -/
def FORM_REQUIRE_TB : Nat := 1

/-- Embedding of pass_h2h (second source, lines 149-152) on the fetched
h2h rows: tb = number of totals at 3 or more, pass iff tb is at least
H2H_REQUIRE_TB.  Returns the totals as the code does. -/
def pass_h2h (rows : List MatchRow) : Bool × List Nat :=
  let totals := h2h_total_goals rows
  (decide (H2H_REQUIRE_TB ≤ totals.countP (fun t => decide (3 ≤ t))), totals)

/-- Embedding of pass_form (second source, lines 154-157). -/
def pass_form (rows : List MatchRow) : Bool × List Nat :=
  let totals := team_last_totals rows
  (decide (FORM_REQUIRE_TB ≤ totals.countP (fun t => decide (3 ≤ t))), totals)

/-! ## Averages and the first-half filter (bot.py) -/

/-- Embedding of average_scored (bot.py lines 372-378): the empty list is
guarded to 0.0, otherwise sum of goals-for over the list length.  Python
floats are modelled by rationals; the Python parameter is called matches,
a reserved word here, so it is written ms. -/
def average_scored (ms : List (Nat × Nat)) : ℚ :=
  if ms = [] then 0
  else ((ms.map (fun m => m.1)).sum : ℚ) / (ms.length : ℚ)

/-- Embedding of average_conceded (bot.py lines 380-383). -/
def average_conceded (ms : List (Nat × Nat)) : ℚ :=
  if ms = [] then 0
  else ((ms.map (fun m => m.2)).sum : ℚ) / (ms.length : ℚ)

/-- Which side the 1x2 favourite is, as detected by match_odds_1x2. -/
inductive Side where
  | home
  | away
deriving DecidableEq, Repr

/-- bot.py threshold: favourite 1x2 price at most 1.50. -/
def FAV_MAX_PRICE : ℚ := 3 / 2

/-- bot.py threshold: favourite average scored at least 1.6. -/
def FAV_MIN_SCORED : ℚ := 8 / 5

/-- bot.py threshold: underdog average conceded at least 1.2. -/
def DOG_MIN_CONCEDED : ℚ := 6 / 5

/-- Embedding of pass_filters_fh_over05 (bot.py lines 385-431),
parameterised by the oracle results of its two remote fetches: the 1x2
odds pair returned by FS.match_odds_1x2 and the two last-results lists
returned by FS.team_last_matches.  Python truthiness of fav_side and
fav_price: None fails, and a price of 0 also fails the `not fav_price`
test.  Returns the pass flag and the reason string on failure. -/
def pass_filters_fh_over05 (odds : Option Side × Option ℚ)
    (home_last away_last : List (Nat × Nat)) : Bool × String :=
  match odds with
  | (none, _) => (false, "no_odds")
  | (_, none) => (false, "no_odds")
  | (some side, some price) =>
    if price = 0 then (false, "no_odds")
    else if FAV_MAX_PRICE < price then (false, "fav_price above max")
    else if home_last.length < 2 ∨ away_last.length < 2 then
      (false, "not_enough_history")
    else
      let fav_last := match side with | Side.home => home_last | Side.away => away_last
      let dog_last := match side with | Side.home => away_last | Side.away => home_last
      let fav_scored := average_scored fav_last
      let dog_conceded := average_conceded dog_last
      if fav_scored < FAV_MIN_SCORED then (false, "fav_scored below min")
      else if dog_conceded < DOG_MIN_CONCEDED then (false, "dog_conceded below min")
      else (true, "")

/-! ## Odds scan (second source, get_odds_tb25) -/

/-- One entry of a bet's values array: value (the line label) and odd (the
price string); either may be absent or null. -/
structure OddValue where
  value : Option String
  odd : Option String
deriving DecidableEq, Repr

/-- One bet of a bookmaker: the market name and its values. -/
structure Bet where
  name : Option String
  values : List OddValue
deriving DecidableEq, Repr

/-- One bookmaker of an odds row. -/
structure Bookmaker where
  bets : List Bet
deriving DecidableEq, Repr

/-- One row of an odds response. -/
structure OddsRow where
  bookmakers : List Bookmaker
deriving DecidableEq, Repr

/-- Python str.lower of one character, for the ASCII range the market
names use. -/
def pyLowerChar (c : Char) : Char :=
  if c.isUpper then Char.ofNat (c.toNat + 32) else c

/-- Python str.lower. -/
def pyLower (s : String) : String :=
  ⟨s.data.map pyLowerChar⟩

/-- The whitespace set of Python str.strip. -/
def pyIsSpace (c : Char) : Bool :=
  c == ' ' || c == '\t' || c == '\n' || c == '\r'

/-- Python str.strip: drop whitespace from both ends. -/
def pyStrip (s : String) : String :=
  ⟨((s.data.dropWhile pyIsSpace).reverse.dropWhile pyIsSpace).reverse⟩

/-- Python str.startswith. -/
def pyStartsWith (s pre : String) : Bool :=
  pre.data.isPrefixOf s.data

/-- The running-best update of get_odds_tb25: best = k when best is None
or k > best. -/
def bestStep (best : Option ℚ) (k : ℚ) : Option ℚ :=
  match best with
  | none => some k
  | some b => if b < k then some k else some b

/-- The body of the innermost loop of get_odds_tb25 (for v in
bet.get("values")): the value participates when its stripped value label
equals "Over 2.5" and odd is truthy (present and non-empty) and
float(odd) succeeds; parse is the oracle for Python float. -/
def tb25_valStep (parse : String → Option ℚ) (best : Option ℚ) (v : OddValue) :
    Option ℚ :=
  match v.odd with
  | none => best
  | some o =>
    if pyStrip (v.value.getD "") = "Over 2.5" ∧ o ≠ "" then
      match parse o with
      | none => best
      | some k => bestStep best k
    else best

/-- The per-bet step of get_odds_tb25: a bet participates when its
lowercased name starts with "over/under". -/
def tb25_betStep (parse : String → Option ℚ) (best : Option ℚ) (bet : Bet) :
    Option ℚ :=
  if pyStartsWith (pyLower (bet.name.getD "")) "over/under" then
    bet.values.foldl (tb25_valStep parse) best
  else best

/-- The per-bookmaker step of get_odds_tb25 (for bet in bm.get("bets")). -/
def tb25_bmStep (parse : String → Option ℚ) (best : Option ℚ)
    (bm : Bookmaker) : Option ℚ :=
  bm.bets.foldl (tb25_betStep parse) best

/-- Embedding of get_odds_tb25 (second source, lines 113-136): the four
nested for-loops over rows, bookmakers, bets and values, threaded through
the running best, starting from None. -/
def get_odds_tb25 (parse : String → Option ℚ) (rows : List OddsRow) : Option ℚ :=
  rows.foldl (fun best book => book.bookmakers.foldl (tb25_bmStep parse) best) none

/-- The candidate prices of one values list, as the claim describes them:
the parsed odds of the values whose line is exactly "Over 2.5". -/
def tb25_valCands (parse : String → Option ℚ) (vals : List OddValue) : List ℚ :=
  vals.filterMap (fun v =>
    if pyStrip (v.value.getD "") = "Over 2.5" then parse (v.odd.getD "") else none)

/-- The candidate prices of one bet. -/
def tb25_betCands (parse : String → Option ℚ) (bet : Bet) : List ℚ :=
  if pyStartsWith (pyLower (bet.name.getD "")) "over/under" then
    tb25_valCands parse bet.values
  else []

/-- The candidate prices of one bookmaker. -/
def tb25_bmCands (parse : String → Option ℚ) (bm : Bookmaker) : List ℚ :=
  bm.bets.flatMap (tb25_betCands parse)

/-- All candidate prices of an odds response: over all bookmakers'
Over/Under bets, the parsed odds of the values whose line is exactly
"Over 2.5".  This definition follows the claim's words, to compare with
get_odds_tb25. -/
def tb25_candidates (parse : String → Option ℚ) (rows : List OddsRow) : List ℚ :=
  rows.flatMap (fun book => book.bookmakers.flatMap (tb25_bmCands parse))

/-! ## State store -/

/-- The three failing file conditions of a state-file read, next to a
successful parse: the file is missing, the file exists but reading it
raises, or its contents are not valid JSON for a state. -/
inductive FileCond (α : Type) where
  | missing
  | unreadable
  | invalidJson
  | valid (s : α)
deriving DecidableEq, Repr

/-- One stored pick of bot.py: the fixture_url identity field (absent
urls occur when no match link was parsed) and the rest of the dict,
opaque here. -/
structure Pick where
  fixture_url : Option String
  payload : String
deriving DecidableEq, Repr

/-- The bot.py state: the day-keyed picks mapping, modelled as a total
function from day key to pick list (a Python dict with [] default via
setdefault / .get(key, [])). -/
def PicksMap : Type := String → List Pick

/-- The empty bot.py state \x7b"picks": \x7b\x7d\x7d. -/
def emptyPicks : PicksMap := fun _ => []

/-- Embedding of bot.py load_state (lines 125-132): a missing file and
any read or parse failure alike produce the fresh empty state; only a
valid file yields its contents.  Totality of this function is the
no-raise behaviour: every Python branch catches. -/
def load_state_bot (f : FileCond PicksMap) : PicksMap :=
  match f with
  | FileCond.valid s => s
  | _ => emptyPicks

/-- Embedding of store_picks (bot.py lines 141-150): read the day's
current list, compute the known fixture_url set once, then append each
incoming pick whose fixture_url is not known.  The known set is not
updated inside the loop, so duplicates inside one batch all pass. -/
def store_picks (st : PicksMap) (key : String) (picks : List Pick) : PicksMap :=
  let cur := st key
  let known := cur.map (fun p => p.fixture_url)
  let added := picks.filter (fun p => !(known.contains p.fixture_url))
  fun k => if k = key then cur ++ added else st k

/-! ## Settlement (second source, daily_report) -/

/-- One planned signal of the second source's state (the fields the
settlement logic reads; the message-only fields are opaque payload). -/
structure Planned where
  fixture_id : Nat
  odds : ℚ
  home : String
  away : String
deriving DecidableEq, Repr

/-- One history record appended at settlement:
\x7bfid, res ("W"/"L"), odds, when\x7d. -/
structure HistEntry where
  fid : Nat
  res : String
  odds : ℚ
  whenDay : String
deriving DecidableEq, Repr

/-- The second source's state dict: planned signals and history. -/
structure NState where
  planned : List Planned
  history : List HistEntry
deriving DecidableEq, Repr

/-- The initial state literal of the second source (lines 44-47). -/
def initNState : NState := ⟨[], []⟩

/-- Embedding of the second source's load_state (lines 56-63): it mutates
the global state only on a successful parse; a missing file leaves the
global untouched, and any read/parse failure is caught and logged, also
leaving the global untouched.  prev is the global state at call time. -/
def load_state_nastr (prev : NState) (f : FileCond NState) : NState :=
  match f with
  | FileCond.valid s => s
  | _ => prev

/-- The settlement of one planned signal inside daily_report (second
source, lines 245-256): query the score; only a final (FT) fixture gets a
history record, W when the or-0 total is 3 or more, else L. -/
def settleEntry (api : Nat → List FixRow) (today : String) (p : Planned) :
    Option HistEntry :=
  match fixture_score api p.fixture_id with
  | (some st, some total) =>
    if st = "FT" then
      some ⟨p.fixture_id, if 3 ≤ total then "W" else "L", p.odds, today⟩
    else none
  | _ => none

/-- Embedding of daily_report (second source, lines 236-274), returning
the new state together with the list of fixture ids sent to the remote
score endpoint.  An empty planned list returns early with no calls.
Otherwise the report loop queries every planned fixture once and records
an outcome for each finished one, and the cleanup loop queries every
planned fixture a second time and keeps only the unfinished ones. -/
def daily_report (api : Nat → List FixRow) (today : String) (st : NState) :
    NState × List Nat :=
  if st.planned = [] then (st, [])
  else
    let calls1 := st.planned.map (fun p => p.fixture_id)
    let newHist := st.planned.filterMap (settleEntry api today)
    let calls2 := st.planned.map (fun p => p.fixture_id)
    let newPlanned :=
      st.planned.filter (fun p => !((fixture_score api p.fixture_id).1 == some "FT"))
    (⟨newPlanned, st.history ++ newHist⟩, calls1 ++ calls2)

/-! ## Scheduler (bot.py scheduler_loop and the second source's
tick_scheduler)

A tick carries the local-time facts the two schedulers read: the ISO date
string dkey (now.date().isoformat(), equal to now.strftime("%Y-%m-%d")),
hour, minute, weekday (Python convention, 6 = Sunday), and whether the
date is the last calendar day of its month ((now + 1 day).day == 1).
weekKey and monthKey are the tick's ISO year-week and year-month, carried
so claims about calendar periods can be stated; they are not read by the
code. -/

/-- One scheduler wake-up's local-time facts. -/
structure Tick where
  dkey : String
  hour : Nat
  minute : Nat
  weekday : Nat
  lastDayOfMonth : Bool
  weekKey : String
  monthKey : String
deriving DecidableEq, Repr

/-- Scan trigger 08:00 (both sources). -/
def SCAN_HH : Nat := 8

/-- Scan trigger minute. -/
def SCAN_MM : Nat := 0

/-- Daily report trigger 23:30 (both sources). -/
def DAILY_RPT_HH : Nat := 23

/-- Daily report trigger minute. -/
def DAILY_RPT_MM : Nat := 30

/-- Weekly/monthly report trigger 23:50 (both sources). -/
def WEEKLY_RPT_HH : Nat := 23

/-- Weekly/monthly report trigger minute. -/
def WEEKLY_RPT_MM : Nat := 50

/-- The four periodic tasks. -/
inductive Task where
  | scan
  | daily
  | weekly
  | monthly
deriving DecidableEq, Repr

/-- The in-memory markers of bot.py scheduler_loop (line 492): the four
local variables last_scan_key, last_daily_key, last_weekly_key,
last_monthly_key, all initialised to the empty string on (re)start. -/
structure SchedState where
  scanKey : String
  dailyKey : String
  weeklyKey : String
  monthlyKey : String
deriving DecidableEq, Repr

/-- A fresh scheduler_loop state: all four keys are "". -/
def initSched : SchedState := ⟨"", "", "", ""⟩

/-- Line 502 guard: now.hour == SCAN_HH and now.minute == SCAN_MM and
last_scan_key != dkey. -/
def dueScan (s : SchedState) (t : Tick) : Bool :=
  (t.hour == SCAN_HH) && (t.minute == SCAN_MM) && (s.scanKey != t.dkey)

/-- Line 509 guard for the daily report. -/
def dueDaily (s : SchedState) (t : Tick) : Bool :=
  (t.hour == DAILY_RPT_HH) && (t.minute == DAILY_RPT_MM) && (s.dailyKey != t.dkey)

/-- Line 514 guard: Sunday (weekday 6) at 23:50, marker not today. -/
def dueWeekly (s : SchedState) (t : Tick) : Bool :=
  (t.weekday == 6) && (t.hour == WEEKLY_RPT_HH) && (t.minute == WEEKLY_RPT_MM)
    && (s.weeklyKey != t.dkey)

/-- Line 519 guard: last day of the month at 23:50, marker not today. -/
def dueMonthly (s : SchedState) (t : Tick) : Bool :=
  t.lastDayOfMonth && (t.hour == WEEKLY_RPT_HH) && (t.minute == WEEKLY_RPT_MM)
    && (s.monthlyKey != t.dkey)

/-- Fourth stage of one scheduler_loop tick body (lines 519-521).  The
raises oracle tells which due task's action raises this tick; a raise
aborts the rest of the tick body (the try/except at lines 523-524 catches
and the loop sleeps), so the marker assignment after the action is
skipped.  acc accumulates the tasks completed earlier in this tick. -/
def tickMonthly (raises : Task → Bool) (s : SchedState) (t : Tick)
    (acc : List (Task × Tick)) : SchedState × List (Task × Tick) :=
  if dueMonthly s t then
    if raises Task.monthly then (s, acc)
    else ({ s with monthlyKey := t.dkey }, acc ++ [(Task.monthly, t)])
  else (s, acc)

/-- Third stage of a tick body (lines 514-516), then the monthly stage. -/
def tickWeekly (raises : Task → Bool) (s : SchedState) (t : Tick)
    (acc : List (Task × Tick)) : SchedState × List (Task × Tick) :=
  if dueWeekly s t then
    if raises Task.weekly then (s, acc)
    else tickMonthly raises { s with weeklyKey := t.dkey } t (acc ++ [(Task.weekly, t)])
  else tickMonthly raises s t acc

/-- Second stage of a tick body (lines 509-511), then the later stages. -/
def tickDaily (raises : Task → Bool) (s : SchedState) (t : Tick)
    (acc : List (Task × Tick)) : SchedState × List (Task × Tick) :=
  if dueDaily s t then
    if raises Task.daily then (s, acc)
    else tickWeekly raises { s with dailyKey := t.dkey } t (acc ++ [(Task.daily, t)])
  else tickWeekly raises s t acc

/-- One full scheduler_loop tick body (bot.py lines 496-521) under the
raises oracle: the four guarded blocks run in order scan, daily, weekly,
monthly; each completed task appends its marker assignment, and a raising
action aborts the remainder.  Returns the new markers and the completed
(task, tick) events. -/
def sched_tick_exc (raises : Task → Bool) (s : SchedState) (t : Tick) :
    SchedState × List (Task × Tick) :=
  if dueScan s t then
    if raises Task.scan then (s, [])
    else tickDaily raises { s with scanKey := t.dkey } t [(Task.scan, t)]
  else tickDaily raises s t []

/-- The oracle under which no action raises. -/
def noRaise : Task → Bool := fun _ => false

/-- One tick body when every action completes normally. -/
def sched_tick (s : SchedState) (t : Tick) : SchedState × List (Task × Tick) :=
  sched_tick_exc noRaise s t

/-- A whole run of scheduler_loop over a tick sequence (no restarts, all
actions complete), collecting every completed (task, tick) event. -/
def runSched (s : SchedState) : List Tick → SchedState × List (Task × Tick)
  | [] => (s, [])
  | t :: ts =>
    let st := sched_tick s t
    let rest := runSched st.1 ts
    (rest.1, st.2 ++ rest.2)

/-! ### The second source's tick_scheduler (lines 300-336)

Its markers are the module-level sent_flags dict, one Option String per
task, None initially; the period key it stores is
now.strftime("%Y-%m-%d:%H%M").  In each guarded block the flag is
assigned BEFORE the task's action is invoked. -/

/-- The sent_flags dict. -/
structure Flags where
  scan : Option String
  daily : Option String
  weekly : Option String
  monthly : Option String
deriving DecidableEq, Repr

/-- sent_flags at module load: every flag None. -/
def initFlags : Flags := ⟨none, none, none, none⟩

/-- Zero-padded two-digit rendering of an hour or minute, as strftime
%H / %M produce for values below 100. -/
def pad2 (n : Nat) : String :=
  if n < 10 then "0" ++ toString n else toString n

/-- now.strftime("%Y-%m-%d:%H%M") assembled from the tick's fields. -/
def minuteKey (t : Tick) : String :=
  t.dkey ++ ":" ++ pad2 t.hour ++ pad2 t.minute

/-- The monthly block of tick_scheduler (second source, lines 329-336):
last day of the month at 23:50; the flag is assigned before monthly_report
is invoked, so a raising action leaves the flag advanced. -/
def nTickMonthly (raises : Task → Bool) (f : Flags) (t : Tick)
    (acc : List Task) : Flags × List Task :=
  if t.lastDayOfMonth && (t.hour == WEEKLY_RPT_HH) && (t.minute == WEEKLY_RPT_MM)
      && (f.monthly != some (minuteKey t)) then
    if raises Task.monthly then ({ f with monthly := some (minuteKey t) }, acc)
    else ({ f with monthly := some (minuteKey t) }, acc ++ [Task.monthly])
  else (f, acc)

/-- The weekly block of tick_scheduler (lines 322-327), then the monthly
block; a raise aborts the later block but keeps the assigned flag. -/
def nTickWeekly (raises : Task → Bool) (f : Flags) (t : Tick)
    (acc : List Task) : Flags × List Task :=
  if (t.weekday == 6) && (t.hour == WEEKLY_RPT_HH) && (t.minute == WEEKLY_RPT_MM)
      && (f.weekly != some (minuteKey t)) then
    if raises Task.weekly then ({ f with weekly := some (minuteKey t) }, acc)
    else nTickMonthly raises { f with weekly := some (minuteKey t) } t
      (acc ++ [Task.weekly])
  else nTickMonthly raises f t acc

/-- The daily block of tick_scheduler (lines 315-320), then the later
blocks. -/
def nTickDaily (raises : Task → Bool) (f : Flags) (t : Tick)
    (acc : List Task) : Flags × List Task :=
  if (t.hour == DAILY_RPT_HH) && (t.minute == DAILY_RPT_MM)
      && (f.daily != some (minuteKey t)) then
    if raises Task.daily then ({ f with daily := some (minuteKey t) }, acc)
    else nTickWeekly raises { f with daily := some (minuteKey t) } t
      (acc ++ [Task.daily])
  else nTickWeekly raises f t acc

/-- Embedding of tick_scheduler (second source, lines 303-336) under a
raises oracle.  Each of the four blocks tests the trigger clock equality
and flag inequality, assigns the flag first, then invokes the action; a
raising action propagates out of tick_scheduler (the main loop catches at
lines 349-354), aborting the later blocks — but the flag assignment made
before the raise survives.  Returns the flags and the completed tasks. -/
def tick_scheduler_exc (raises : Task → Bool) (f : Flags) (t : Tick) :
    Flags × List Task :=
  if (t.hour == SCAN_HH) && (t.minute == SCAN_MM) && (f.scan != some (minuteKey t)) then
    if raises Task.scan then ({ f with scan := some (minuteKey t) }, [])
    else nTickDaily raises { f with scan := some (minuteKey t) } t [Task.scan]
  else nTickDaily raises f t []

/-- The scan block's guard of tick_scheduler (second source, line 309 and
311). -/
def nDueScan (f : Flags) (t : Tick) : Bool :=
  (t.hour == SCAN_HH) && (t.minute == SCAN_MM) && (f.scan != some (minuteKey t))

/-- The daily block's guard of tick_scheduler (lines 316 and 318). -/
def nDueDaily (f : Flags) (t : Tick) : Bool :=
  (t.hour == DAILY_RPT_HH) && (t.minute == DAILY_RPT_MM)
    && (f.daily != some (minuteKey t))

/-- The weekly block's guard of tick_scheduler (lines 323 and 325). -/
def nDueWeekly (f : Flags) (t : Tick) : Bool :=
  (t.weekday == 6) && (t.hour == WEEKLY_RPT_HH) && (t.minute == WEEKLY_RPT_MM)
    && (f.weekly != some (minuteKey t))

/-- The monthly block's guard of tick_scheduler (lines 331-332 and 334). -/
def nDueMonthly (f : Flags) (t : Tick) : Bool :=
  t.lastDayOfMonth && (t.hour == WEEKLY_RPT_HH) && (t.minute == WEEKLY_RPT_MM)
    && (f.monthly != some (minuteKey t))

/-- A whole run of the second source's main loop (lines 348-354) over a
tick sequence with every action completing normally: tick_scheduler on
each tick in order, collecting every completed task tagged with its
tick. -/
def runNastr (f : Flags) : List Tick → Flags × List (Task × Tick)
  | [] => (f, [])
  | t :: ts =>
    let st := tick_scheduler_exc noRaise f t
    let rest := runNastr st.1 ts
    (rest.1, st.2.map (fun x => (x, t)) ++ rest.2)

/-- A single sent-flag task of tick_scheduler in isolation: the flag
starts at m (None on module load); each tick satisfying the clock
predicate whose minute key differs from the flag fires and moves the flag
to its minute key. -/
def runFlag (pred : Tick → Bool) (m : Option String) : List Tick → Option String × List Tick
  | [] => (m, [])
  | t :: ts =>
    if pred t && (m != some (minuteKey t)) then
      ((runFlag pred (some (minuteKey t)) ts).1,
        t :: (runFlag pred (some (minuteKey t)) ts).2)
    else runFlag pred m ts

/-- The minute key a tick with the given trigger clock time and the given
date produces: for ticks satisfying a task's clock predicate, minuteKey
is this function of the date alone. -/
def minuteKeyAt (hh mm : Nat) (d : String) : String :=
  d ++ ":" ++ pad2 hh ++ pad2 mm

/-- A one-fixture data source for the settlement witness: fixture 7
finished 2:1. -/
def api0 : Nat → List FixRow :=
  fun i => if i = 7 then [⟨some "FT", some 2, some 1⟩] else []

/-- A state holding one planned signal on fixture 7. -/
def st0C4 : NState := ⟨[⟨7, 3/2, "H", "A"⟩], []⟩

/-! ### Scheduler proof infrastructure -/

/-- The clock part of the scan trigger (bot.py line 502). -/
def predScan (t : Tick) : Bool :=
  (t.hour == SCAN_HH) && (t.minute == SCAN_MM)

/-- The clock part of the daily-report trigger (line 509). -/
def predDaily (t : Tick) : Bool :=
  (t.hour == DAILY_RPT_HH) && (t.minute == DAILY_RPT_MM)

/-- The clock part of the weekly-report trigger (line 514). -/
def predWeekly (t : Tick) : Bool :=
  (t.weekday == 6) && (t.hour == WEEKLY_RPT_HH) && (t.minute == WEEKLY_RPT_MM)

/-- The clock part of the monthly-report trigger (line 519). -/
def predMonthly (t : Tick) : Bool :=
  t.lastDayOfMonth && (t.hour == WEEKLY_RPT_HH) && (t.minute == WEEKLY_RPT_MM)

/-- A single marker task in isolation: the marker starts at m; each tick
satisfying the clock predicate whose dkey differs from the marker fires
and moves the marker to its dkey.  Returns the final marker and the
fired ticks. -/
def runMark (pred : Tick → Bool) (m : String) : List Tick → String × List Tick
  | [] => (m, [])
  | t :: ts =>
    if pred t && (m != t.dkey) then
      ((runMark pred t.dkey ts).1, t :: (runMark pred t.dkey ts).2)
    else runMark pred m ts

/-- A tick in the scan trigger minute of Friday 2024-01-05. -/
def tick0800 : Tick := ⟨"2024-01-05", 8, 0, 4, false, "2024-W01", "2024-01"⟩

/-- A tick one minute after the scan trigger on the same day. -/
def tick0801 : Tick := ⟨"2024-01-05", 8, 1, 4, false, "2024-W01", "2024-01"⟩

/-- A tick in the daily-report trigger minute of the same day. -/
def tick2330 : Tick := ⟨"2024-01-05", 23, 30, 4, false, "2024-W01", "2024-01"⟩

/-- Witness tick sequence for the amended C1: two ticks inside the scan
minute (the 20-second loop wakes several times per minute) and one in the
daily-report minute, all on one day. -/
def ticksW : List Tick := [tick0800, tick0800, tick2330]

/-- The raise oracle under which the scan action raises. -/
def raiseScan : Task → Bool := fun τ => τ == Task.scan

/-- A concrete float-parse oracle for the odds witness. -/
def parseW : String → Option ℚ :=
  fun s => if s = "1.85" then some 2 else if s = "2.10" then some 3 else none

/-- A concrete odds response: one bookmaker, one Over/Under bet with two
"Over 2.5" values (prices parsing to 2 and 3) and one "Under 2.5"
value. -/
def rowsW : List OddsRow :=
  [⟨[⟨[⟨some "Over/Under", [⟨some "Over 2.5", some "1.85"⟩,
      ⟨some "Under 2.5", some "2.10"⟩, ⟨some "Over 2.5", some "2.10"⟩]⟩]⟩]⟩]

/-! ## Theorems -/

/-- C9: average_scored and average_conceded are total functions: both
return 0 on the empty match list (the division is guarded), and on any
non-empty list of (goals_for, goals_against) pairs they return the sum of
first (respectively second) components divided by the list length, whose
cast is non-zero; the multiplicative forms witness that the division is a
genuine division by the length. -/
theorem C9_average_total :
    average_scored [] = 0 ∧ average_conceded [] = 0 ∧
      ∀ ms : List (Nat × Nat), ms ≠ [] →
        (ms.length : ℚ) ≠ 0 ∧
        average_scored ms = ((ms.map (fun m => m.1)).sum : ℚ) / (ms.length : ℚ) ∧
        average_conceded ms = ((ms.map (fun m => m.2)).sum : ℚ) / (ms.length : ℚ) ∧
        average_scored ms * (ms.length : ℚ) = ((ms.map (fun m => m.1)).sum : ℚ) ∧
        average_conceded ms * (ms.length : ℚ) = ((ms.map (fun m => m.2)).sum : ℚ) := by
  refine ⟨rfl, rfl, ?_⟩
  intro ms h
  have h0 : ms.length ≠ 0 := fun hl => h (List.eq_nil_of_length_eq_zero hl)
  have hlen : (ms.length : ℚ) ≠ 0 := Nat.cast_ne_zero.mpr h0
  refine ⟨hlen, by simp [average_scored, h], by simp [average_conceded, h], ?_, ?_⟩
  · simp only [average_scored, h, if_false]
    field_simp
  · simp only [average_conceded, h, if_false]
    field_simp

/-- Witness for C9 at the concrete list [(2,1),(4,3)]. -/
theorem C9_average_total_witness :
    (([((2:Nat),(1:Nat)), (4,3)] : List (Nat × Nat)).length : ℚ) ≠ 0 ∧
    average_scored [(2,1), (4,3)] =
      ((([((2:Nat),(1:Nat)), (4,3)] : List (Nat × Nat)).map (fun m => m.1)).sum : ℚ) /
        (([((2:Nat),(1:Nat)), (4,3)] : List (Nat × Nat)).length : ℚ) ∧
    average_conceded [(2,1), (4,3)] =
      ((([((2:Nat),(1:Nat)), (4,3)] : List (Nat × Nat)).map (fun m => m.2)).sum : ℚ) /
        (([((2:Nat),(1:Nat)), (4,3)] : List (Nat × Nat)).length : ℚ) ∧
    average_scored [(2,1), (4,3)] * (([((2:Nat),(1:Nat)), (4,3)] : List (Nat × Nat)).length : ℚ) =
      ((([((2:Nat),(1:Nat)), (4,3)] : List (Nat × Nat)).map (fun m => m.1)).sum : ℚ) ∧
    average_conceded [(2,1), (4,3)] * (([((2:Nat),(1:Nat)), (4,3)] : List (Nat × Nat)).length : ℚ) =
      ((([((2:Nat),(1:Nat)), (4,3)] : List (Nat × Nat)).map (fun m => m.2)).sum : ℚ) :=
  C9_average_total.2.2 [(2,1), (4,3)] (by decide)

/-- C6: on each of the three failing persisted-state conditions (missing
file, unreadable file, invalid JSON) the load operation yields the fresh
empty state and, being a total Lean function, never raises: bot.py
load_state returns the empty picks state outright, and the second
source's load_state leaves the global state untouched, which at its only
call site (startup, where the global is the initial empty literal) is the
same fresh empty state. -/
theorem C6_load_failure_safe :
    load_state_bot FileCond.missing = emptyPicks ∧
    load_state_bot FileCond.unreadable = emptyPicks ∧
    load_state_bot FileCond.invalidJson = emptyPicks ∧
    load_state_nastr initNState FileCond.missing = initNState ∧
    load_state_nastr initNState FileCond.unreadable = initNState ∧
    load_state_nastr initNState FileCond.invalidJson = initNState ∧
    initNState.planned = [] ∧ initNState.history = [] :=
  ⟨rfl, rfl, rfl, rfl, rfl, rfl, rfl, rfl⟩

/-- C7 counterexample: a match row whose home-goals field is absent is
indistinguishable from a genuine 0-goal row — the absent field is
coalesced to 0 (or-0), the row still contributes a data point, and the
same happens in team-form totals and in final-score settlement.  Under
the claim (absence treated as missing data, not zero) the produced totals
would have to differ from those of literal-zero rows or the rows would
have to be dropped. -/
theorem C7_counterexample :
    h2h_total_goals [⟨none, some 2⟩] = h2h_total_goals [⟨some 0, some 2⟩] ∧
    h2h_total_goals [⟨none, some 2⟩] = [2] ∧
    (h2h_total_goals [⟨none, some 2⟩]).length = 1 ∧
    team_last_totals [⟨none, none⟩] = team_last_totals [⟨some 0, some 0⟩] ∧
    team_last_totals [⟨none, none⟩] = [0] ∧
    fixture_score (fun _ => [⟨some "FT", none, some 2⟩]) 1 =
      fixture_score (fun _ => [⟨some "FT", some 0, some 2⟩]) 1 ∧
    fixture_score (fun _ => [⟨some "FT", none, some 2⟩]) 1 = (some "FT", some 2) := by
  refine ⟨rfl, rfl, rfl, rfl, rfl, rfl, rfl⟩

/-- C7 amended: absent or null goals fields are coalesced to zero, not
treated as missing data: head-to-head totals, team-form totals and
final-score settlement are invariant under replacing every absent goals
field by a literal 0, and no row is dropped (the totals keep one data
point per row). -/
theorem C7_amended_zero_coalescing :
    (∀ rows : List MatchRow,
      h2h_total_goals (rows.map fillZeroMatch) = h2h_total_goals rows ∧
      (h2h_total_goals rows).length = rows.length) ∧
    (∀ rows : List MatchRow,
      team_last_totals (rows.map fillZeroMatch) = team_last_totals rows ∧
      (team_last_totals rows).length = rows.length) ∧
    (∀ api : Nat → List FixRow, ∀ fid : Nat,
      fixture_score (fun i => (api i).map fillZeroFix) fid = fixture_score api fid) := by
  refine ⟨?_, ?_, ?_⟩
  · intro rows
    constructor
    · simp [h2h_total_goals, fillZeroMatch, List.map_map, Function.comp]
    · simp [h2h_total_goals]
  · intro rows
    constructor
    · simp [team_last_totals, fillZeroMatch, List.map_map, Function.comp]
    · simp [team_last_totals]
  · intro api fid
    unfold fixture_score
    cases h : api fid with
    | nil => simp [h]
    | cons m rest => simp [h, fillZeroFix]

/-- Witness for C7's amended theorem at a one-row list with an absent
home-goals field and a one-fixture source with an absent away-goals
field. -/
theorem C7_amended_zero_coalescing_witness :
    h2h_total_goals ([⟨none, some 2⟩].map fillZeroMatch) =
      h2h_total_goals [⟨none, some 2⟩] ∧
    (h2h_total_goals [⟨none, some 2⟩]).length = 1 ∧
    team_last_totals ([⟨some 1, none⟩].map fillZeroMatch) =
      team_last_totals [⟨some 1, none⟩] ∧
    fixture_score (fun i => ((fun _ => [⟨some "FT", some 1, none⟩]) i).map fillZeroFix) 3 =
      fixture_score (fun _ => [⟨some "FT", some 1, none⟩]) 3 :=
  ⟨(C7_amended_zero_coalescing.1 [⟨none, some 2⟩]).1,
   (C7_amended_zero_coalescing.1 [⟨none, some 2⟩]).2,
   (C7_amended_zero_coalescing.2.1 [⟨some 1, none⟩]).1,
   C7_amended_zero_coalescing.2.2 (fun _ => [⟨some "FT", some 1, none⟩]) 3⟩

/-- C8: the rule evaluators fail closed on insufficient history: pass_h2h
does not pass when fewer head-to-head rows than the required
over-2.5 count exist (in particular on an empty list), pass_form does not
pass on an empty form list, and pass_filters_fh_over05 does not pass when
either team's last-results list has fewer than 2 entries. -/
theorem C8_fail_closed :
    (∀ rows : List MatchRow, rows.length < H2H_REQUIRE_TB → (pass_h2h rows).1 = false) ∧
    (∀ rows : List MatchRow, rows = [] → (pass_form rows).1 = false) ∧
    (∀ odds : Option Side × Option ℚ, ∀ hl al : List (Nat × Nat),
      hl.length < 2 ∨ al.length < 2 → (pass_filters_fh_over05 odds hl al).1 = false) := by
  refine ⟨?_, ?_, ?_⟩
  · intro rows h
    have hc : (h2h_total_goals rows).countP (fun t => decide (3 ≤ t)) < H2H_REQUIRE_TB := by
      calc (h2h_total_goals rows).countP (fun t => decide (3 ≤ t))
          ≤ (h2h_total_goals rows).length := List.countP_le_length _
        _ = rows.length := by simp [h2h_total_goals]
        _ < H2H_REQUIRE_TB := h
    simp [pass_h2h, Nat.not_le.mpr hc]
  · intro rows h
    subst h
    simp [pass_form, team_last_totals, FORM_REQUIRE_TB]
  · intro odds hl al h
    obtain ⟨side, price⟩ := odds
    cases side with
    | none => cases price <;> rfl
    | some side =>
      cases price with
      | none => rfl
      | some price =>
        simp only [pass_filters_fh_over05]
        split_ifs <;> rfl

/-- Witness for C8 at empty histories and a concrete odds pair. -/
theorem C8_fail_closed_witness :
    (pass_h2h []).1 = false ∧ (pass_form []).1 = false ∧
    (pass_filters_fh_over05 (some Side.home, some (7/5)) [(2,1)] [(3,0),(1,1)]).1 = false :=
  ⟨C8_fail_closed.1 [] (by decide),
   C8_fail_closed.2.1 [] rfl,
   C8_fail_closed.2.2 (some Side.home, some (7/5)) [(2,1)] [(3,0),(1,1)]
     (Or.inl (by decide))⟩

/-- C3 counterexample: appending the same signal twice within a single
batch (one store_picks call, as one scan produces) stores it twice: the
known set is computed before the loop and not updated inside it, so the
second copy passes the duplicate check.  The claim requires exactly one
stored entry. -/
theorem C3_counterexample :
    ((store_picks emptyPicks "2024-01-05"
        [⟨some "u", "p"⟩, ⟨some "u", "p"⟩]) "2024-01-05").countP
      (fun p => p.fixture_url == some "u") = 2 := by
  decide

/-- What a store_picks call leaves at the day key it targets: the
previous list, then the incoming picks whose fixture_url is not among the
previously stored ones. -/
theorem store_picks_get (st : PicksMap) (key : String) (picks : List Pick) :
    store_picks st key picks key =
      st key ++ picks.filter
        (fun p => !(((st key).map (fun q => q.fixture_url)).contains p.fixture_url)) := by
  simp [store_picks]

/-- C3 amended: the append is idempotent only across separate store_picks
calls: if no entry with the signal's fixture identifier is stored for the
day, two successive single-signal store_picks calls leave exactly one
entry with that identifier (the second call is a no-op for it); a batch
holding the same identifier twice, however, stores it twice. -/
theorem C3_amended_idempotent_across_calls (st : PicksMap) (key : String) (s : Pick)
    (h : (st key).countP (fun p => p.fixture_url == s.fixture_url) = 0) :
    ((store_picks (store_picks st key [s]) key [s]) key).countP
      (fun p => p.fixture_url == s.fixture_url) = 1 := by
  have hall : ∀ p ∈ st key, ¬ (p.fixture_url == s.fixture_url) = true :=
    List.countP_eq_zero.mp h
  have hnotmem : s.fixture_url ∉ (st key).map (fun p => p.fixture_url) := by
    intro hm
    obtain ⟨p, hp, hpe⟩ := List.mem_map.mp hm
    exact hall p hp (by simp [hpe])
  have hcont1 : ((st key).map (fun p => p.fixture_url)).contains s.fixture_url = false :=
    Bool.eq_false_iff.mpr (fun hc => hnotmem (List.elem_iff.mp hc))
  have h1 : store_picks st key [s] key = st key ++ [s] := by
    rw [store_picks_get]
    simp only [List.filter_cons, hcont1, Bool.not_false, if_true, List.filter_nil]
  have hmem2 : s.fixture_url ∈ (st key ++ [s]).map (fun p => p.fixture_url) := by
    simp
  have hcont2 : ((st key ++ [s]).map (fun p => p.fixture_url)).contains s.fixture_url
      = true := List.elem_iff.mpr hmem2
  have h2 : store_picks (store_picks st key [s]) key [s] key = (st key ++ [s]) ++ [] := by
    rw [store_picks_get, h1]
    simp only [List.filter_cons, hcont2, Bool.not_true, if_false, List.filter_nil]
    simp
  rw [h2]
  simp [List.countP_append, List.countP_cons, h]

/-- Witness for C3's amended theorem: a fresh state, one signal appended
by two separate calls, one stored entry. -/
theorem C3_amended_witness :
    ((store_picks (store_picks emptyPicks "2024-01-05" [⟨some "u", "p"⟩])
        "2024-01-05" [⟨some "u", "p"⟩]) "2024-01-05").countP
      (fun p => p.fixture_url == some "u") = 1 :=
  C3_amended_idempotent_across_calls emptyPicks "2024-01-05" ⟨some "u", "p"⟩ (by decide)

/-- A settled history entry carries the fixture id of the planned signal
it settles. -/
theorem settleEntry_fid (api : Nat → List FixRow) (today : String) (p : Planned)
    (e : HistEntry) (h : settleEntry api today p = some e) : e.fid = p.fixture_id := by
  unfold settleEntry at h
  rcases hfs : fixture_score api p.fixture_id with ⟨st, total⟩
  rw [hfs] at h
  cases st with
  | none => cases total <;> simp at h
  | some a =>
    cases total with
    | none => simp at h
    | some t =>
      simp only [] at h
      split at h
      · cases h
        rfl
      · cases h

/-- Every remote call daily_report issues carries the fixture id of some
signal planned at entry. -/
theorem daily_report_calls (api : Nat → List FixRow) (today : String) (st : NState)
    (x : Nat) (hx : x ∈ (daily_report api today st).2) :
    ∃ p ∈ st.planned, p.fixture_id = x := by
  unfold daily_report at hx
  split at hx
  · cases hx
  · rcases List.mem_append.mp hx with hm | hm <;>
      · obtain ⟨p, hp, hpe⟩ := List.mem_map.mp hm
        exact ⟨p, hp, hpe⟩

/-- After a daily_report run, no signal of a finished (FT) fixture is
still planned. -/
theorem daily_report_planned (api : Nat → List FixRow) (today : String) (st : NState)
    (fid : Nat) (hFT : (fixture_score api fid).1 = some "FT") :
    ∀ p ∈ (daily_report api today st).1.planned, p.fixture_id ≠ fid := by
  intro p hp
  unfold daily_report at hp
  split at hp
  · next hempty =>
    rw [hempty] at hp
    cases hp
  · simp only [List.mem_filter] at hp
    intro hpe
    rw [hpe, hFT] at hp
    simp at hp

/-- C4: an already-settled signal (its fixture finished, its outcome
recorded by a daily_report run) is not touched by a second settlement
run: it is no longer planned, the second run issues no remote call for
its fixture id, its stored history outcome is unchanged, and re-settling
it against the unchanged data source would reproduce the same W/L
outcome (settlement is deterministic in the source's final state). -/
theorem C4_settlement_idempotent (api : Nat → List FixRow) (today today2 : String)
    (st0 : NState) (fid : Nat) (hFT : (fixture_score api fid).1 = some "FT") :
    (∀ p ∈ (daily_report api today st0).1.planned, p.fixture_id ≠ fid) ∧
    fid ∉ (daily_report api today2 (daily_report api today st0).1).2 ∧
    (daily_report api today2 (daily_report api today st0).1).1.history.filter
        (fun e => e.fid == fid) =
      (daily_report api today st0).1.history.filter (fun e => e.fid == fid) ∧
    (∀ p : Planned, p.fixture_id = fid →
      (settleEntry api today2 p).map HistEntry.res =
        (settleEntry api today p).map HistEntry.res) := by
  refine ⟨daily_report_planned api today st0 fid hFT, ?_, ?_, ?_⟩
  · intro hmem
    obtain ⟨p, hp, hpe⟩ :=
      daily_report_calls api today2 (daily_report api today st0).1 fid hmem
    exact daily_report_planned api today st0 fid hFT p hp hpe
  · set st1 := (daily_report api today st0).1 with hst1
    show (daily_report api today2 st1).1.history.filter (fun e => e.fid == fid) =
      st1.history.filter (fun e => e.fid == fid)
    unfold daily_report
    split
    · rfl
    · simp only [List.filter_append]
      have hnil : (st1.planned.filterMap (settleEntry api today2)).filter
          (fun e => e.fid == fid) = [] := by
        rw [List.filter_eq_nil_iff]
        intro e he
        obtain ⟨p, hp, hpe⟩ := List.mem_filterMap.mp he
        have : e.fid = p.fixture_id := settleEntry_fid api today2 p e hpe
        have hne : p.fixture_id ≠ fid :=
          daily_report_planned api today st0 fid hFT p (by rw [hst1] at hp; exact hp)
        simp [this, hne]
      rw [hnil, List.append_nil]
  · intro p hp
    rcases hfs : fixture_score api p.fixture_id with ⟨st, total⟩
    cases st <;> cases total <;> simp only [settleEntry, hfs] <;> first
    | rfl
    | (split <;> rfl)

/-- Witness for C4 at the concrete one-signal state and finished
fixture. -/
theorem C4_settlement_idempotent_witness :
    (∀ p ∈ (daily_report api0 "d1" st0C4).1.planned, p.fixture_id ≠ 7) ∧
    7 ∉ (daily_report api0 "d2" (daily_report api0 "d1" st0C4).1).2 ∧
    (daily_report api0 "d2" (daily_report api0 "d1" st0C4).1).1.history.filter
        (fun e => e.fid == 7) =
      (daily_report api0 "d1" st0C4).1.history.filter (fun e => e.fid == 7) := by
  have h := C4_settlement_idempotent api0 "d1" "d2" st0C4 7 rfl
  exact ⟨h.1, h.2.1, h.2.2.1⟩

/-- One no-raise scheduler_loop tick in closed form: each marker moves to
the tick's date exactly when its task is due, and the completed events
are the due tasks in their fixed order. -/
theorem sched_tick_char (s : SchedState) (t : Tick) :
    sched_tick s t =
      (⟨if dueScan s t then t.dkey else s.scanKey,
        if dueDaily s t then t.dkey else s.dailyKey,
        if dueWeekly s t then t.dkey else s.weeklyKey,
        if dueMonthly s t then t.dkey else s.monthlyKey⟩,
       (if dueScan s t then [(Task.scan, t)] else []) ++
       (if dueDaily s t then [(Task.daily, t)] else []) ++
       (if dueWeekly s t then [(Task.weekly, t)] else []) ++
       (if dueMonthly s t then [(Task.monthly, t)] else [])) := by
  simp only [sched_tick, sched_tick_exc, tickDaily, tickWeekly, tickMonthly, noRaise,
    dueScan, dueDaily, dueWeekly, dueMonthly]
  split_ifs <;> simp_all

/-- Splitting a full scheduler run into one task's marker process: if a
projection f of the state moves to the tick's date exactly under the
given clock-and-marker condition and the task's completed events are the
corresponding singletons, then over any tick sequence f follows runMark
and the task's completed ticks are runMark's fires. -/
theorem runSched_proj (pred : Tick → Bool) (τ : Task) (f : SchedState → String)
    (hf : ∀ s t, f (sched_tick s t).1 =
      if pred t && (f s != t.dkey) then t.dkey else f s)
    (hev : ∀ s t, ((sched_tick s t).2.filter (fun e => e.1 == τ)).map Prod.snd =
      if pred t && (f s != t.dkey) then [t] else []) (ticks : List Tick) :
    ∀ s, f (runSched s ticks).1 = (runMark pred (f s) ticks).1 ∧
      ((runSched s ticks).2.filter (fun e => e.1 == τ)).map Prod.snd =
      (runMark pred (f s) ticks).2 := by
  induction ticks with
  | nil => intro s; exact ⟨rfl, rfl⟩
  | cons t ts ih =>
    intro s
    obtain ⟨ih1, ih2⟩ := ih (sched_tick s t).1
    have hrs1 : (runSched s (t :: ts)).1 = (runSched (sched_tick s t).1 ts).1 := rfl
    have hrs2 : (runSched s (t :: ts)).2 =
        (sched_tick s t).2 ++ (runSched (sched_tick s t).1 ts).2 := rfl
    cases hd : (pred t && (f s != t.dkey)) with
    | true =>
      have hfs : f (sched_tick s t).1 = t.dkey := by rw [hf s t, hd, if_pos rfl]
      constructor
      · rw [hrs1, ih1, hfs]
        simp [runMark, hd]
      · rw [hrs2, List.filter_append, List.map_append, hev s t, hd, if_pos rfl,
          ih2, hfs]
        simp [runMark, hd]
    | false =>
      have hfs : f (sched_tick s t).1 = f s := by
        rw [hf s t, hd]
        simp
      constructor
      · rw [hrs1, ih1, hfs]
        simp [runMark, hd]
      · rw [hrs2, List.filter_append, List.map_append, hev s t, hd, ih2, hfs]
        simp [runMark, hd]

/-- Every fired tick of a marker process is a tick of the input sequence
and satisfies the clock predicate. -/
theorem runMark_mem (pred : Tick → Bool) : ∀ (l : List Tick) (m : String) (x : Tick),
    x ∈ (runMark pred m l).2 → x ∈ l ∧ pred x = true := by
  intro l
  induction l with
  | nil => intro m x hx; simp [runMark] at hx
  | cons t ts ih =>
    intro m x hx
    cases hd : (pred t && (m != t.dkey)) with
    | true =>
      rw [runMark, if_pos hd] at hx
      rw [Bool.and_eq_true] at hd
      rcases List.mem_cons.mp hx with rfl | hx2
      · exact ⟨List.mem_cons_self _ _, hd.1⟩
      · obtain ⟨hmem, hpred⟩ := ih t.dkey x hx2
        exact ⟨List.mem_cons_of_mem _ hmem, hpred⟩
    | false =>
      rw [runMark, if_neg (by simp [hd])] at hx
      obtain ⟨hmem, hpred⟩ := ih m x hx
      exact ⟨List.mem_cons_of_mem _ hmem, hpred⟩

/-- Over a date-sorted tick sequence whose dates all lie at or above the
marker, every fired tick's date lies strictly above the marker. -/
theorem runMark_dkey_lt (pred : Tick → Bool) : ∀ (l : List Tick) (m : String),
    (l.map Tick.dkey).Sorted (· ≤ ·) → (∀ u ∈ l, m ≤ u.dkey) →
    ∀ x ∈ (runMark pred m l).2, m < x.dkey := by
  intro l
  induction l with
  | nil => intro m _ _ x hx; simp [runMark] at hx
  | cons t ts ih =>
    intro m hsort hlb x hx
    have hsort2 : (ts.map Tick.dkey).Sorted (· ≤ ·) :=
      (List.sorted_cons.mp hsort).2
    have htle : ∀ u ∈ ts, t.dkey ≤ u.dkey := fun u hu =>
      (List.sorted_cons.mp hsort).1 u.dkey
        (List.mem_map_of_mem Tick.dkey hu)
    cases hd : (pred t && (m != t.dkey)) with
    | true =>
      rw [runMark, if_pos hd] at hx
      have hmt : m ≤ t.dkey := hlb t (List.mem_cons_self _ _)
      rw [Bool.and_eq_true] at hd
      rcases List.mem_cons.mp hx with rfl | hx2
      · have hne : m ≠ x.dkey := by simpa using hd.2
        exact lt_of_le_of_ne (hlb x (List.mem_cons_self _ _)) hne
      · exact lt_of_le_of_lt hmt (ih t.dkey hsort2 htle x hx2)
    | false =>
      rw [runMark, if_neg (by simp [hd])] at hx
      exact ih m hsort2 (fun u hu => hlb u (List.mem_cons_of_mem _ hu)) x hx

/-- Over a date-sorted tick sequence, the fired ticks of a marker process
have strictly increasing dates. -/
theorem runMark_strictSorted (pred : Tick → Bool) : ∀ (l : List Tick) (m : String),
    (l.map Tick.dkey).Sorted (· ≤ ·) →
    (((runMark pred m l).2).map Tick.dkey).Sorted (· < ·) := by
  intro l
  induction l with
  | nil => intro m _; simp [runMark]
  | cons t ts ih =>
    intro m hsort
    have hsort2 : (ts.map Tick.dkey).Sorted (· ≤ ·) :=
      (List.sorted_cons.mp hsort).2
    have htle : ∀ u ∈ ts, t.dkey ≤ u.dkey := fun u hu =>
      (List.sorted_cons.mp hsort).1 u.dkey
        (List.mem_map_of_mem Tick.dkey hu)
    cases hd : (pred t && (m != t.dkey)) with
    | true =>
      rw [runMark, if_pos hd]
      rw [List.map_cons, List.sorted_cons]
      refine ⟨?_, ih t.dkey hsort2⟩
      intro b hb
      obtain ⟨x, hx, hxb⟩ := List.mem_map.mp hb
      rw [← hxb]
      exact runMark_dkey_lt pred ts t.dkey hsort2 htle x hx
    | false =>
      rw [runMark, if_neg (by simp [hd])]
      exact ih m hsort2

/-- Task constructor discrimination for ==, scan side. -/
@[simp] theorem beqTask_daily_scan : (Task.daily == Task.scan) = false := rfl

/-- Task constructor discrimination for ==. -/
@[simp] theorem beqTask_weekly_scan : (Task.weekly == Task.scan) = false := rfl

/-- Task constructor discrimination for ==. -/
@[simp] theorem beqTask_monthly_scan : (Task.monthly == Task.scan) = false := rfl

/-- Task constructor discrimination for ==. -/
@[simp] theorem beqTask_scan_daily : (Task.scan == Task.daily) = false := rfl

/-- Task constructor discrimination for ==. -/
@[simp] theorem beqTask_weekly_daily : (Task.weekly == Task.daily) = false := rfl

/-- Task constructor discrimination for ==. -/
@[simp] theorem beqTask_monthly_daily : (Task.monthly == Task.daily) = false := rfl

/-- Task constructor discrimination for ==. -/
@[simp] theorem beqTask_scan_weekly : (Task.scan == Task.weekly) = false := rfl

/-- Task constructor discrimination for ==. -/
@[simp] theorem beqTask_daily_weekly : (Task.daily == Task.weekly) = false := rfl

/-- Task constructor discrimination for ==. -/
@[simp] theorem beqTask_monthly_weekly : (Task.monthly == Task.weekly) = false := rfl

/-- Task constructor discrimination for ==. -/
@[simp] theorem beqTask_scan_monthly : (Task.scan == Task.monthly) = false := rfl

/-- Task constructor discrimination for ==. -/
@[simp] theorem beqTask_daily_monthly : (Task.daily == Task.monthly) = false := rfl

/-- Task constructor discrimination for ==. -/
@[simp] theorem beqTask_weekly_monthly : (Task.weekly == Task.monthly) = false := rfl

/-- The scan marker after one no-raise tick. -/
theorem sched_tick_scanKey (s : SchedState) (t : Tick) :
    (sched_tick s t).1.scanKey =
      if predScan t && (s.scanKey != t.dkey) then t.dkey else s.scanKey := by
  rw [sched_tick_char]
  rfl

/-- The daily marker after one no-raise tick. -/
theorem sched_tick_dailyKey (s : SchedState) (t : Tick) :
    (sched_tick s t).1.dailyKey =
      if predDaily t && (s.dailyKey != t.dkey) then t.dkey else s.dailyKey := by
  rw [sched_tick_char]
  rfl

/-- The weekly marker after one no-raise tick. -/
theorem sched_tick_weeklyKey (s : SchedState) (t : Tick) :
    (sched_tick s t).1.weeklyKey =
      if predWeekly t && (s.weeklyKey != t.dkey) then t.dkey else s.weeklyKey := by
  rw [sched_tick_char]
  rfl

/-- The monthly marker after one no-raise tick. -/
theorem sched_tick_monthlyKey (s : SchedState) (t : Tick) :
    (sched_tick s t).1.monthlyKey =
      if predMonthly t && (s.monthlyKey != t.dkey) then t.dkey else s.monthlyKey := by
  rw [sched_tick_char]
  rfl

/-- One tick's completed scan events. -/
theorem sched_tick_ev_scan (s : SchedState) (t : Tick) :
    ((sched_tick s t).2.filter (fun e => e.1 == Task.scan)).map Prod.snd =
      if predScan t && (s.scanKey != t.dkey) then [t] else [] := by
  have hc : (predScan t && (s.scanKey != t.dkey)) = dueScan s t := rfl
  rw [hc, sched_tick_char]
  cases hb1 : dueScan s t <;> cases hb2 : dueDaily s t <;>
    cases hb3 : dueWeekly s t <;> cases hb4 : dueMonthly s t <;>
      simp [List.filter_append]

/-- One tick's completed daily events. -/
theorem sched_tick_ev_daily (s : SchedState) (t : Tick) :
    ((sched_tick s t).2.filter (fun e => e.1 == Task.daily)).map Prod.snd =
      if predDaily t && (s.dailyKey != t.dkey) then [t] else [] := by
  have hc : (predDaily t && (s.dailyKey != t.dkey)) = dueDaily s t := rfl
  rw [hc, sched_tick_char]
  cases hb1 : dueScan s t <;> cases hb2 : dueDaily s t <;>
    cases hb3 : dueWeekly s t <;> cases hb4 : dueMonthly s t <;>
      simp [List.filter_append]

/-- One tick's completed weekly events. -/
theorem sched_tick_ev_weekly (s : SchedState) (t : Tick) :
    ((sched_tick s t).2.filter (fun e => e.1 == Task.weekly)).map Prod.snd =
      if predWeekly t && (s.weeklyKey != t.dkey) then [t] else [] := by
  have hc : (predWeekly t && (s.weeklyKey != t.dkey)) = dueWeekly s t := rfl
  rw [hc, sched_tick_char]
  cases hb1 : dueScan s t <;> cases hb2 : dueDaily s t <;>
    cases hb3 : dueWeekly s t <;> cases hb4 : dueMonthly s t <;>
      simp [List.filter_append]

/-- One tick's completed monthly events. -/
theorem sched_tick_ev_monthly (s : SchedState) (t : Tick) :
    ((sched_tick s t).2.filter (fun e => e.1 == Task.monthly)).map Prod.snd =
      if predMonthly t && (s.monthlyKey != t.dkey) then [t] else [] := by
  have hc : (predMonthly t && (s.monthlyKey != t.dkey)) = dueMonthly s t := rfl
  rw [hc, sched_tick_char]
  cases hb1 : dueScan s t <;> cases hb2 : dueDaily s t <;>
    cases hb3 : dueWeekly s t <;> cases hb4 : dueMonthly s t <;>
      simp [List.filter_append]

/-- The fired dates of a marker process over a date-sorted tick sequence
are pairwise distinct. -/
theorem runMark_dkey_nodup (pred : Tick → Bool) (l : List Tick) (m : String)
    (hsort : (l.map Tick.dkey).Sorted (· ≤ ·)) :
    (((runMark pred m l).2).map Tick.dkey).Nodup :=
  List.Pairwise.imp (fun h => ne_of_lt h) (runMark_strictSorted pred l m hsort)

/-- One no-raise tick_scheduler tick in closed form: each sent-flag moves
to the tick's minute key exactly when its block's guard holds, and the
completed tasks are the due ones in their fixed order. -/
theorem tick_scheduler_char (f : Flags) (t : Tick) :
    tick_scheduler_exc noRaise f t =
      (⟨if nDueScan f t then some (minuteKey t) else f.scan,
        if nDueDaily f t then some (minuteKey t) else f.daily,
        if nDueWeekly f t then some (minuteKey t) else f.weekly,
        if nDueMonthly f t then some (minuteKey t) else f.monthly⟩,
       (if nDueScan f t then [Task.scan] else []) ++
       (if nDueDaily f t then [Task.daily] else []) ++
       (if nDueWeekly f t then [Task.weekly] else []) ++
       (if nDueMonthly f t then [Task.monthly] else [])) := by
  simp only [tick_scheduler_exc, nTickDaily, nTickWeekly, nTickMonthly, noRaise,
    nDueScan, nDueDaily, nDueWeekly, nDueMonthly]
  split_ifs <;> simp_all

/-- The scan flag after one no-raise tick_scheduler tick. -/
theorem nastr_tick_scanFlag (f : Flags) (t : Tick) :
    (tick_scheduler_exc noRaise f t).1.scan =
      if predScan t && (f.scan != some (minuteKey t)) then some (minuteKey t)
      else f.scan := by
  rw [tick_scheduler_char]
  rfl

/-- The daily flag after one no-raise tick_scheduler tick. -/
theorem nastr_tick_dailyFlag (f : Flags) (t : Tick) :
    (tick_scheduler_exc noRaise f t).1.daily =
      if predDaily t && (f.daily != some (minuteKey t)) then some (minuteKey t)
      else f.daily := by
  rw [tick_scheduler_char]
  rfl

/-- The weekly flag after one no-raise tick_scheduler tick. -/
theorem nastr_tick_weeklyFlag (f : Flags) (t : Tick) :
    (tick_scheduler_exc noRaise f t).1.weekly =
      if predWeekly t && (f.weekly != some (minuteKey t)) then some (minuteKey t)
      else f.weekly := by
  rw [tick_scheduler_char]
  rfl

/-- The monthly flag after one no-raise tick_scheduler tick. -/
theorem nastr_tick_monthlyFlag (f : Flags) (t : Tick) :
    (tick_scheduler_exc noRaise f t).1.monthly =
      if predMonthly t && (f.monthly != some (minuteKey t)) then some (minuteKey t)
      else f.monthly := by
  rw [tick_scheduler_char]
  rfl

/-- One tick_scheduler tick's completed scan tasks. -/
theorem nastr_tick_ev_scan (f : Flags) (t : Tick) :
    (tick_scheduler_exc noRaise f t).2.filter (fun x => x == Task.scan) =
      if predScan t && (f.scan != some (minuteKey t)) then [Task.scan] else [] := by
  have hc : (predScan t && (f.scan != some (minuteKey t))) = nDueScan f t := rfl
  rw [hc, tick_scheduler_char]
  cases hb1 : nDueScan f t <;> cases hb2 : nDueDaily f t <;>
    cases hb3 : nDueWeekly f t <;> cases hb4 : nDueMonthly f t <;>
      simp [List.filter_append]

/-- One tick_scheduler tick's completed daily tasks. -/
theorem nastr_tick_ev_daily (f : Flags) (t : Tick) :
    (tick_scheduler_exc noRaise f t).2.filter (fun x => x == Task.daily) =
      if predDaily t && (f.daily != some (minuteKey t)) then [Task.daily] else [] := by
  have hc : (predDaily t && (f.daily != some (minuteKey t))) = nDueDaily f t := rfl
  rw [hc, tick_scheduler_char]
  cases hb1 : nDueScan f t <;> cases hb2 : nDueDaily f t <;>
    cases hb3 : nDueWeekly f t <;> cases hb4 : nDueMonthly f t <;>
      simp [List.filter_append]

/-- One tick_scheduler tick's completed weekly tasks. -/
theorem nastr_tick_ev_weekly (f : Flags) (t : Tick) :
    (tick_scheduler_exc noRaise f t).2.filter (fun x => x == Task.weekly) =
      if predWeekly t && (f.weekly != some (minuteKey t)) then [Task.weekly] else [] := by
  have hc : (predWeekly t && (f.weekly != some (minuteKey t))) = nDueWeekly f t := rfl
  rw [hc, tick_scheduler_char]
  cases hb1 : nDueScan f t <;> cases hb2 : nDueDaily f t <;>
    cases hb3 : nDueWeekly f t <;> cases hb4 : nDueMonthly f t <;>
      simp [List.filter_append]

/-- One tick_scheduler tick's completed monthly tasks. -/
theorem nastr_tick_ev_monthly (f : Flags) (t : Tick) :
    (tick_scheduler_exc noRaise f t).2.filter (fun x => x == Task.monthly) =
      if predMonthly t && (f.monthly != some (minuteKey t)) then [Task.monthly]
      else [] := by
  have hc : (predMonthly t && (f.monthly != some (minuteKey t))) = nDueMonthly f t := rfl
  rw [hc, tick_scheduler_char]
  cases hb1 : nDueScan f t <;> cases hb2 : nDueDaily f t <;>
    cases hb3 : nDueWeekly f t <;> cases hb4 : nDueMonthly f t <;>
      simp [List.filter_append]

/-- Splitting a full tick_scheduler run into one task's sent-flag
process: if a flag projection g moves to the tick's minute key exactly
under the given clock-and-flag condition and the task's completed events
are the corresponding singletons, then over any tick sequence g follows
runFlag and the task's completed ticks are runFlag's fires. -/
theorem runNastr_proj (pred : Tick → Bool) (τ : Task) (g : Flags → Option String)
    (hf : ∀ f t, g (tick_scheduler_exc noRaise f t).1 =
      if pred t && (g f != some (minuteKey t)) then some (minuteKey t) else g f)
    (hev : ∀ f t, (tick_scheduler_exc noRaise f t).2.filter (fun x => x == τ) =
      if pred t && (g f != some (minuteKey t)) then [τ] else []) (ticks : List Tick) :
    ∀ f, g (runNastr f ticks).1 = (runFlag pred (g f) ticks).1 ∧
      ((runNastr f ticks).2.filter (fun e => e.1 == τ)).map Prod.snd =
      (runFlag pred (g f) ticks).2 := by
  induction ticks with
  | nil => intro f; exact ⟨rfl, rfl⟩
  | cons t ts ih =>
    intro f
    obtain ⟨ih1, ih2⟩ := ih (tick_scheduler_exc noRaise f t).1
    have hrs1 : (runNastr f (t :: ts)).1 =
        (runNastr (tick_scheduler_exc noRaise f t).1 ts).1 := rfl
    have hrs2 : (runNastr f (t :: ts)).2 =
        (tick_scheduler_exc noRaise f t).2.map (fun x => (x, t)) ++
          (runNastr (tick_scheduler_exc noRaise f t).1 ts).2 := rfl
    have hfe : ((tick_scheduler_exc noRaise f t).2.map (fun x => (x, t))).filter
        (fun e => e.1 == τ) =
        ((tick_scheduler_exc noRaise f t).2.filter (fun x => x == τ)).map
          (fun x => (x, t)) := by
      rw [List.filter_map]
      rfl
    cases hd : (pred t && (g f != some (minuteKey t))) with
    | true =>
      have hgf : g (tick_scheduler_exc noRaise f t).1 = some (minuteKey t) := by
        rw [hf f t, hd, if_pos rfl]
      constructor
      · rw [hrs1, ih1, hgf]
        simp [runFlag, hd]
      · rw [hrs2, List.filter_append, List.map_append, hfe, hev f t, hd, if_pos rfl,
          ih2, hgf]
        simp [runFlag, hd]
    | false =>
      have hgf : g (tick_scheduler_exc noRaise f t).1 = g f := by
        rw [hf f t, hd]
        simp
      constructor
      · rw [hrs1, ih1, hgf]
        simp [runFlag, hd]
      · rw [hrs2, List.filter_append, List.map_append, hfe, hev f t, hd, ih2, hgf]
        simp [runFlag, hd]

/-- Every fired tick of a sent-flag process is a tick of the input
sequence and satisfies the clock predicate. -/
theorem runFlag_mem (pred : Tick → Bool) : ∀ (l : List Tick) (m : Option String)
    (x : Tick), x ∈ (runFlag pred m l).2 → x ∈ l ∧ pred x = true := by
  intro l
  induction l with
  | nil => intro m x hx; simp [runFlag] at hx
  | cons t ts ih =>
    intro m x hx
    cases hd : (pred t && (m != some (minuteKey t))) with
    | true =>
      rw [runFlag, if_pos hd] at hx
      rw [Bool.and_eq_true] at hd
      rcases List.mem_cons.mp hx with rfl | hx2
      · exact ⟨List.mem_cons_self _ _, hd.1⟩
      · obtain ⟨hmem, hpred⟩ := ih (some (minuteKey t)) x hx2
        exact ⟨List.mem_cons_of_mem _ hmem, hpred⟩
    | false =>
      rw [runFlag, if_neg (by simp [hd])] at hx
      obtain ⟨hmem, hpred⟩ := ih m x hx
      exact ⟨List.mem_cons_of_mem _ hmem, hpred⟩

/-- Over a date-sorted tick sequence whose dates all lie at or above d,
and whose clock-predicate ticks have minute key determined by the date
through key, every tick fired from the flag value of date d has its date
strictly above d. -/
theorem runFlag_dkey_lt (pred : Tick → Bool) (key : String → String) :
    ∀ (l : List Tick) (d : String),
    (l.map Tick.dkey).Sorted (· ≤ ·) → (∀ u ∈ l, d ≤ u.dkey) →
    (∀ u ∈ l, pred u = true → minuteKey u = key u.dkey) →
    ∀ x ∈ (runFlag pred (some (key d)) l).2, d < x.dkey := by
  intro l
  induction l with
  | nil => intro d _ _ _ x hx; simp [runFlag] at hx
  | cons t ts ih =>
    intro d hsort hlb hkey x hx
    have hsort2 : (ts.map Tick.dkey).Sorted (· ≤ ·) := (List.sorted_cons.mp hsort).2
    have htle : ∀ u ∈ ts, t.dkey ≤ u.dkey := fun u hu =>
      (List.sorted_cons.mp hsort).1 u.dkey (List.mem_map_of_mem Tick.dkey hu)
    have hkey2 : ∀ u ∈ ts, pred u = true → minuteKey u = key u.dkey := fun u hu =>
      hkey u (List.mem_cons_of_mem _ hu)
    cases hd : (pred t && (some (key d) != some (minuteKey t))) with
    | true =>
      rw [runFlag, if_pos hd] at hx
      rw [Bool.and_eq_true] at hd
      have hkt : minuteKey t = key t.dkey := hkey t (List.mem_cons_self _ _) hd.1
      have hne : key d ≠ minuteKey t := by simpa using hd.2
      have hmt : d ≤ t.dkey := hlb t (List.mem_cons_self _ _)
      rcases List.mem_cons.mp hx with rfl | hx2
      · have hdne : d ≠ x.dkey := by
          intro heq
          exact hne (by rw [heq, hkt])
        exact lt_of_le_of_ne hmt hdne
      · rw [hkt] at hx2
        exact lt_of_le_of_lt hmt (ih t.dkey hsort2 htle hkey2 x hx2)
    | false =>
      rw [runFlag, if_neg (by simp [hd])] at hx
      exact ih d hsort2 (fun u hu => hlb u (List.mem_cons_of_mem _ hu)) hkey2 x hx

/-- Over a date-sorted tick sequence whose clock-predicate ticks have
minute key determined by the date, the fired ticks of a sent-flag process
have strictly increasing dates. -/
theorem runFlag_strictSorted (pred : Tick → Bool) (key : String → String) :
    ∀ (l : List Tick) (m : Option String),
    (l.map Tick.dkey).Sorted (· ≤ ·) →
    (∀ u ∈ l, pred u = true → minuteKey u = key u.dkey) →
    (((runFlag pred m l).2).map Tick.dkey).Sorted (· < ·) := by
  intro l
  induction l with
  | nil => intro m _ _; simp [runFlag]
  | cons t ts ih =>
    intro m hsort hkey
    have hsort2 : (ts.map Tick.dkey).Sorted (· ≤ ·) := (List.sorted_cons.mp hsort).2
    have htle : ∀ u ∈ ts, t.dkey ≤ u.dkey := fun u hu =>
      (List.sorted_cons.mp hsort).1 u.dkey (List.mem_map_of_mem Tick.dkey hu)
    have hkey2 : ∀ u ∈ ts, pred u = true → minuteKey u = key u.dkey := fun u hu =>
      hkey u (List.mem_cons_of_mem _ hu)
    cases hd : (pred t && (m != some (minuteKey t))) with
    | true =>
      rw [runFlag, if_pos hd]
      rw [Bool.and_eq_true] at hd
      have hkt : minuteKey t = key t.dkey := hkey t (List.mem_cons_self _ _) hd.1
      rw [List.map_cons, List.sorted_cons]
      refine ⟨?_, ih (some (minuteKey t)) hsort2 hkey2⟩
      intro b hb
      obtain ⟨x, hx, hxb⟩ := List.mem_map.mp hb
      rw [← hxb]
      rw [hkt] at hx
      exact runFlag_dkey_lt pred key ts t.dkey hsort2 htle hkey2 x hx
    | false =>
      rw [runFlag, if_neg (by simp [hd])]
      exact ih m hsort2 hkey2

/-- The fired dates of a sent-flag process over a date-sorted tick
sequence are pairwise distinct. -/
theorem runFlag_dkey_nodup (pred : Tick → Bool) (key : String → String)
    (l : List Tick) (m : Option String)
    (hsort : (l.map Tick.dkey).Sorted (· ≤ ·))
    (hkey : ∀ u ∈ l, pred u = true → minuteKey u = key u.dkey) :
    (((runFlag pred m l).2).map Tick.dkey).Nodup :=
  List.Pairwise.imp (fun h => ne_of_lt h) (runFlag_strictSorted pred key l m hsort hkey)

/-- On a tick in the scan trigger minute, the minute key is determined by
the date. -/
theorem predScan_minuteKey (u : Tick) (hp : predScan u = true) :
    minuteKey u = minuteKeyAt SCAN_HH SCAN_MM u.dkey := by
  rw [predScan, Bool.and_eq_true] at hp
  have h1 : u.hour = SCAN_HH := by simpa using hp.1
  have h2 : u.minute = SCAN_MM := by simpa using hp.2
  simp [minuteKey, minuteKeyAt, h1, h2]

/-- On a tick in the daily-report trigger minute, the minute key is
determined by the date. -/
theorem predDaily_minuteKey (u : Tick) (hp : predDaily u = true) :
    minuteKey u = minuteKeyAt DAILY_RPT_HH DAILY_RPT_MM u.dkey := by
  rw [predDaily, Bool.and_eq_true] at hp
  have h1 : u.hour = DAILY_RPT_HH := by simpa using hp.1
  have h2 : u.minute = DAILY_RPT_MM := by simpa using hp.2
  simp [minuteKey, minuteKeyAt, h1, h2]

/-- On a tick in the weekly-report trigger minute, the minute key is
determined by the date. -/
theorem predWeekly_minuteKey (u : Tick) (hp : predWeekly u = true) :
    minuteKey u = minuteKeyAt WEEKLY_RPT_HH WEEKLY_RPT_MM u.dkey := by
  rw [predWeekly, Bool.and_eq_true, Bool.and_eq_true] at hp
  have h1 : u.hour = WEEKLY_RPT_HH := by simpa using hp.1.2
  have h2 : u.minute = WEEKLY_RPT_MM := by simpa using hp.2
  simp [minuteKey, minuteKeyAt, h1, h2]

/-- On a tick in the monthly-report trigger minute, the minute key is
determined by the date. -/
theorem predMonthly_minuteKey (u : Tick) (hp : predMonthly u = true) :
    minuteKey u = minuteKeyAt WEEKLY_RPT_HH WEEKLY_RPT_MM u.dkey := by
  rw [predMonthly, Bool.and_eq_true, Bool.and_eq_true] at hp
  have h1 : u.hour = WEEKLY_RPT_HH := by simpa using hp.1.2
  have h2 : u.minute = WEEKLY_RPT_MM := by simpa using hp.2
  simp [minuteKey, minuteKeyAt, h1, h2]

/-- C1 counterexample: the scheduler markers live only in process memory
(local variables of scheduler_loop, re-initialised to "" on every start),
so a restart inside the same calendar period re-runs a task for a period
key it already ran for.  Two runs from the fresh initial state — the
second modelling the restarted process, both receiving a tick in the
08:00 trigger minute of the same date — execute the scan twice for the
one period key 2024-01-05, where the claim allows at most one
execution. -/
theorem C1_counterexample :
    (((runSched initSched [⟨"2024-01-05", 8, 0, 4, false, "2024-W01", "2024-01"⟩]).2 ++
      (runSched initSched [⟨"2024-01-05", 8, 0, 4, false, "2024-W01", "2024-01"⟩]).2).filter
        (fun e => e.1 == Task.scan && e.2.dkey == "2024-01-05")).length = 2 := by
  decide

/-- C1 amended: within a single process run (no restart, actions
completing normally), every task of BOTH schedulers executes at most
once per its calendar period key: over any chronologically ordered tick
sequence (dates non-decreasing; at most one Sunday date per ISO week
among the ticks, at most one last-day date per month), the executed scan
and daily-report events have pairwise distinct dates, the executed
weekly-report events pairwise distinct ISO week keys, and the executed
monthly-report events pairwise distinct month keys — first for bot.py's
scheduler_loop (runSched), then for the second source's tick_scheduler
(runNastr), whose minute-key flags de-duplicate per date because on
trigger-minute ticks the minute key is a function of the date alone.
Across a restart the in-memory markers reset and the guarantee is lost
(see the counterexample). -/
theorem C1_amended_once_per_period (ticks : List Tick)
    (hsort : (ticks.map Tick.dkey).Sorted (· ≤ ·))
    (hW : ∀ x ∈ ticks, ∀ y ∈ ticks, x.weekday = 6 → y.weekday = 6 →
      x.weekKey = y.weekKey → x.dkey = y.dkey)
    (hM : ∀ x ∈ ticks, ∀ y ∈ ticks, x.lastDayOfMonth = true → y.lastDayOfMonth = true →
      x.monthKey = y.monthKey → x.dkey = y.dkey) :
    ((((runSched initSched ticks).2.filter (fun e => e.1 == Task.scan)).map
        (fun e => e.2.dkey)).Nodup) ∧
    ((((runSched initSched ticks).2.filter (fun e => e.1 == Task.daily)).map
        (fun e => e.2.dkey)).Nodup) ∧
    ((((runSched initSched ticks).2.filter (fun e => e.1 == Task.weekly)).map
        (fun e => e.2.weekKey)).Nodup) ∧
    ((((runSched initSched ticks).2.filter (fun e => e.1 == Task.monthly)).map
        (fun e => e.2.monthKey)).Nodup) ∧
    ((((runNastr initFlags ticks).2.filter (fun e => e.1 == Task.scan)).map
        (fun e => e.2.dkey)).Nodup) ∧
    ((((runNastr initFlags ticks).2.filter (fun e => e.1 == Task.daily)).map
        (fun e => e.2.dkey)).Nodup) ∧
    ((((runNastr initFlags ticks).2.filter (fun e => e.1 == Task.weekly)).map
        (fun e => e.2.weekKey)).Nodup) ∧
    ((((runNastr initFlags ticks).2.filter (fun e => e.1 == Task.monthly)).map
        (fun e => e.2.monthKey)).Nodup) := by
  have nscan := (runNastr_proj predScan Task.scan Flags.scan
    nastr_tick_scanFlag nastr_tick_ev_scan ticks initFlags).2
  have ndaily := (runNastr_proj predDaily Task.daily Flags.daily
    nastr_tick_dailyFlag nastr_tick_ev_daily ticks initFlags).2
  have nweekly := (runNastr_proj predWeekly Task.weekly Flags.weekly
    nastr_tick_weeklyFlag nastr_tick_ev_weekly ticks initFlags).2
  have nmonthly := (runNastr_proj predMonthly Task.monthly Flags.monthly
    nastr_tick_monthlyFlag nastr_tick_ev_monthly ticks initFlags).2
  have hscan := (runSched_proj predScan Task.scan SchedState.scanKey
    sched_tick_scanKey sched_tick_ev_scan ticks initSched).2
  have hdaily := (runSched_proj predDaily Task.daily SchedState.dailyKey
    sched_tick_dailyKey sched_tick_ev_daily ticks initSched).2
  have hweekly := (runSched_proj predWeekly Task.weekly SchedState.weeklyKey
    sched_tick_weeklyKey sched_tick_ev_weekly ticks initSched).2
  have hmonthly := (runSched_proj predMonthly Task.monthly SchedState.monthlyKey
    sched_tick_monthlyKey sched_tick_ev_monthly ticks initSched).2
  refine ⟨?_, ?_, ?_, ?_, ?_, ?_, ?_, ?_⟩
  · have hmm : ((runSched initSched ticks).2.filter (fun e => e.1 == Task.scan)).map
        (fun e => e.2.dkey) =
        (((runSched initSched ticks).2.filter (fun e => e.1 == Task.scan)).map
          Prod.snd).map Tick.dkey := by
      rw [List.map_map]
      rfl
    rw [hmm, hscan]
    exact runMark_dkey_nodup predScan ticks initSched.scanKey hsort
  · have hmm : ((runSched initSched ticks).2.filter (fun e => e.1 == Task.daily)).map
        (fun e => e.2.dkey) =
        (((runSched initSched ticks).2.filter (fun e => e.1 == Task.daily)).map
          Prod.snd).map Tick.dkey := by
      rw [List.map_map]
      rfl
    rw [hmm, hdaily]
    exact runMark_dkey_nodup predDaily ticks initSched.dailyKey hsort
  · have hmm : ((runSched initSched ticks).2.filter (fun e => e.1 == Task.weekly)).map
        (fun e => e.2.weekKey) =
        (((runSched initSched ticks).2.filter (fun e => e.1 == Task.weekly)).map
          Prod.snd).map Tick.weekKey := by
      rw [List.map_map]
      rfl
    rw [hmm, hweekly]
    have hdk : (((runMark predWeekly initSched.weeklyKey ticks).2).map Tick.dkey).Nodup :=
      runMark_dkey_nodup predWeekly ticks initSched.weeklyKey hsort
    refine List.Nodup.map_on ?_ (List.Nodup.of_map Tick.dkey hdk)
    intro x hx y hy hxy
    obtain ⟨hxt, hxp⟩ := runMark_mem predWeekly ticks initSched.weeklyKey x hx
    obtain ⟨hyt, hyp⟩ := runMark_mem predWeekly ticks initSched.weeklyKey y hy
    have hxw : x.weekday = 6 := by
      simp [predWeekly, Bool.and_eq_true] at hxp
      exact hxp.1.1
    have hyw : y.weekday = 6 := by
      simp [predWeekly, Bool.and_eq_true] at hyp
      exact hyp.1.1
    have hdke : x.dkey = y.dkey := hW x hxt y hyt hxw hyw hxy
    exact List.inj_on_of_nodup_map hdk hx hy hdke
  · have hmm : ((runSched initSched ticks).2.filter (fun e => e.1 == Task.monthly)).map
        (fun e => e.2.monthKey) =
        (((runSched initSched ticks).2.filter (fun e => e.1 == Task.monthly)).map
          Prod.snd).map Tick.monthKey := by
      rw [List.map_map]
      rfl
    rw [hmm, hmonthly]
    have hdk : (((runMark predMonthly initSched.monthlyKey ticks).2).map Tick.dkey).Nodup :=
      runMark_dkey_nodup predMonthly ticks initSched.monthlyKey hsort
    refine List.Nodup.map_on ?_ (List.Nodup.of_map Tick.dkey hdk)
    intro x hx y hy hxy
    obtain ⟨hxt, hxp⟩ := runMark_mem predMonthly ticks initSched.monthlyKey x hx
    obtain ⟨hyt, hyp⟩ := runMark_mem predMonthly ticks initSched.monthlyKey y hy
    have hxw : x.lastDayOfMonth = true := by
      simp [predMonthly, Bool.and_eq_true] at hxp
      exact hxp.1.1
    have hyw : y.lastDayOfMonth = true := by
      simp [predMonthly, Bool.and_eq_true] at hyp
      exact hyp.1.1
    have hdke : x.dkey = y.dkey := hM x hxt y hyt hxw hyw hxy
    exact List.inj_on_of_nodup_map hdk hx hy hdke
  · have hmm : ((runNastr initFlags ticks).2.filter (fun e => e.1 == Task.scan)).map
        (fun e => e.2.dkey) =
        (((runNastr initFlags ticks).2.filter (fun e => e.1 == Task.scan)).map
          Prod.snd).map Tick.dkey := by
      rw [List.map_map]
      rfl
    rw [hmm, nscan]
    exact runFlag_dkey_nodup predScan (minuteKeyAt SCAN_HH SCAN_MM) ticks
      initFlags.scan hsort (fun u _ hp => predScan_minuteKey u hp)
  · have hmm : ((runNastr initFlags ticks).2.filter (fun e => e.1 == Task.daily)).map
        (fun e => e.2.dkey) =
        (((runNastr initFlags ticks).2.filter (fun e => e.1 == Task.daily)).map
          Prod.snd).map Tick.dkey := by
      rw [List.map_map]
      rfl
    rw [hmm, ndaily]
    exact runFlag_dkey_nodup predDaily (minuteKeyAt DAILY_RPT_HH DAILY_RPT_MM) ticks
      initFlags.daily hsort (fun u _ hp => predDaily_minuteKey u hp)
  · have hmm : ((runNastr initFlags ticks).2.filter (fun e => e.1 == Task.weekly)).map
        (fun e => e.2.weekKey) =
        (((runNastr initFlags ticks).2.filter (fun e => e.1 == Task.weekly)).map
          Prod.snd).map Tick.weekKey := by
      rw [List.map_map]
      rfl
    rw [hmm, nweekly]
    have hdk : (((runFlag predWeekly initFlags.weekly ticks).2).map Tick.dkey).Nodup :=
      runFlag_dkey_nodup predWeekly (minuteKeyAt WEEKLY_RPT_HH WEEKLY_RPT_MM) ticks
        initFlags.weekly hsort (fun u _ hp => predWeekly_minuteKey u hp)
    refine List.Nodup.map_on ?_ (List.Nodup.of_map Tick.dkey hdk)
    intro x hx y hy hxy
    obtain ⟨hxt, hxp⟩ := runFlag_mem predWeekly ticks initFlags.weekly x hx
    obtain ⟨hyt, hyp⟩ := runFlag_mem predWeekly ticks initFlags.weekly y hy
    have hxw : x.weekday = 6 := by
      simp [predWeekly, Bool.and_eq_true] at hxp
      exact hxp.1.1
    have hyw : y.weekday = 6 := by
      simp [predWeekly, Bool.and_eq_true] at hyp
      exact hyp.1.1
    have hdke : x.dkey = y.dkey := hW x hxt y hyt hxw hyw hxy
    exact List.inj_on_of_nodup_map hdk hx hy hdke
  · have hmm : ((runNastr initFlags ticks).2.filter (fun e => e.1 == Task.monthly)).map
        (fun e => e.2.monthKey) =
        (((runNastr initFlags ticks).2.filter (fun e => e.1 == Task.monthly)).map
          Prod.snd).map Tick.monthKey := by
      rw [List.map_map]
      rfl
    rw [hmm, nmonthly]
    have hdk : (((runFlag predMonthly initFlags.monthly ticks).2).map Tick.dkey).Nodup :=
      runFlag_dkey_nodup predMonthly (minuteKeyAt WEEKLY_RPT_HH WEEKLY_RPT_MM) ticks
        initFlags.monthly hsort (fun u _ hp => predMonthly_minuteKey u hp)
    refine List.Nodup.map_on ?_ (List.Nodup.of_map Tick.dkey hdk)
    intro x hx y hy hxy
    obtain ⟨hxt, hxp⟩ := runFlag_mem predMonthly ticks initFlags.monthly x hx
    obtain ⟨hyt, hyp⟩ := runFlag_mem predMonthly ticks initFlags.monthly y hy
    have hxw : x.lastDayOfMonth = true := by
      simp [predMonthly, Bool.and_eq_true] at hxp
      exact hxp.1.1
    have hyw : y.lastDayOfMonth = true := by
      simp [predMonthly, Bool.and_eq_true] at hyp
      exact hyp.1.1
    have hdke : x.dkey = y.dkey := hM x hxt y hyt hxw hyw hxy
    exact List.inj_on_of_nodup_map hdk hx hy hdke

/-- Witness for C1's amended theorem at the concrete tick sequence. -/
theorem C1_amended_witness :
    ((((runSched initSched ticksW).2.filter (fun e => e.1 == Task.scan)).map
        (fun e => e.2.dkey)).Nodup) ∧
    ((((runSched initSched ticksW).2.filter (fun e => e.1 == Task.daily)).map
        (fun e => e.2.dkey)).Nodup) ∧
    ((((runSched initSched ticksW).2.filter (fun e => e.1 == Task.weekly)).map
        (fun e => e.2.weekKey)).Nodup) ∧
    ((((runSched initSched ticksW).2.filter (fun e => e.1 == Task.monthly)).map
        (fun e => e.2.monthKey)).Nodup) ∧
    ((((runNastr initFlags ticksW).2.filter (fun e => e.1 == Task.scan)).map
        (fun e => e.2.dkey)).Nodup) ∧
    ((((runNastr initFlags ticksW).2.filter (fun e => e.1 == Task.daily)).map
        (fun e => e.2.dkey)).Nodup) ∧
    ((((runNastr initFlags ticksW).2.filter (fun e => e.1 == Task.weekly)).map
        (fun e => e.2.weekKey)).Nodup) ∧
    ((((runNastr initFlags ticksW).2.filter (fun e => e.1 == Task.monthly)).map
        (fun e => e.2.monthKey)).Nodup) :=
  C1_amended_once_per_period ticksW
    (by simp [ticksW, tick0800, tick2330, List.sorted_cons]) (by decide) (by decide)

/-- Membership of one task's event in an event list, through the
filter-and-project view. -/
theorem pair_mem_iff (l : List (Task × Tick)) (τ : Task) (t : Tick) :
    (τ, t) ∈ l ↔ t ∈ (l.filter (fun e => e.1 == τ)).map Prod.snd := by
  constructor
  · intro h
    exact List.mem_map.mpr ⟨(τ, t), List.mem_filter.mpr ⟨h, by simp⟩, rfl⟩
  · intro h
    obtain ⟨e, he, hsnd⟩ := List.mem_map.mp h
    obtain ⟨hel, hfl⟩ := List.mem_filter.mp he
    have h1 : e.1 = τ := by simpa using hfl
    obtain ⟨e1, e2⟩ := e
    cases h1
    cases hsnd
    exact hel

/-- The monthly block never completes another task than its own. -/
theorem mem_nTickMonthly (r : Task → Bool) (f : Flags) (t : Tick)
    (acc : List Task) (τ : Task) (hτ : τ ≠ Task.monthly) :
    (τ ∈ (nTickMonthly r f t acc).2 ↔ τ ∈ acc) := by
  unfold nTickMonthly
  split_ifs <;> simp_all

/-- The weekly block completes only weekly/monthly tasks beyond acc. -/
theorem mem_nTickWeekly (r : Task → Bool) (f : Flags) (t : Tick)
    (acc : List Task) (τ : Task) (hτ1 : τ ≠ Task.weekly) (hτ2 : τ ≠ Task.monthly) :
    (τ ∈ (nTickWeekly r f t acc).2 ↔ τ ∈ acc) := by
  unfold nTickWeekly
  split_ifs <;> simp_all [mem_nTickMonthly]

/-- The daily block completes only daily/weekly/monthly tasks beyond acc. -/
theorem mem_nTickDaily (r : Task → Bool) (f : Flags) (t : Tick)
    (acc : List Task) (τ : Task) (hτ1 : τ ≠ Task.daily) (hτ2 : τ ≠ Task.weekly)
    (hτ3 : τ ≠ Task.monthly) :
    (τ ∈ (nTickDaily r f t acc).2 ↔ τ ∈ acc) := by
  unfold nTickDaily
  split_ifs <;> simp_all [mem_nTickWeekly]

/-- C2 counterexample: a tick at 08:01 — after the trigger time, fresh
markers, so the claim's due-check ((a) clock at or after T, (b) marker
not the current period key) holds — fires nothing in either scheduler:
both compare the clock for exact hour-and-minute equality, so a tick
after the trigger minute (restart, sleep gap) never fires the task. -/
theorem C2_counterexample :
    SCAN_HH * 60 + SCAN_MM ≤ tick0801.hour * 60 + tick0801.minute ∧
    initSched.scanKey ≠ tick0801.dkey ∧
    (sched_tick initSched tick0801).2 = [] ∧
    initFlags.scan ≠ some (minuteKey tick0801) ∧
    (tick_scheduler_exc noRaise initFlags tick0801).2 = [] := by
  decide

/-- C2 amended: the due-check fires a task iff the clock time EQUALS the
configured trigger (hour and minute both equal, plus the weekday gate for
the weekly report and the last-day gate for the monthly report) and the
task's stored marker differs from the current key; there is no at-or-after
catch-up.  Stated for all four tasks of bot.py's scheduler_loop and for
the scan task of the second source's tick_scheduler. -/
theorem C2_amended_due_check (s : SchedState) (f : Flags) (t : Tick) :
    ((Task.scan, t) ∈ (sched_tick s t).2 ↔
      (t.hour = SCAN_HH ∧ t.minute = SCAN_MM ∧ s.scanKey ≠ t.dkey)) ∧
    ((Task.daily, t) ∈ (sched_tick s t).2 ↔
      (t.hour = DAILY_RPT_HH ∧ t.minute = DAILY_RPT_MM ∧ s.dailyKey ≠ t.dkey)) ∧
    ((Task.weekly, t) ∈ (sched_tick s t).2 ↔
      (t.weekday = 6 ∧ t.hour = WEEKLY_RPT_HH ∧ t.minute = WEEKLY_RPT_MM ∧
        s.weeklyKey ≠ t.dkey)) ∧
    ((Task.monthly, t) ∈ (sched_tick s t).2 ↔
      (t.lastDayOfMonth = true ∧ t.hour = WEEKLY_RPT_HH ∧ t.minute = WEEKLY_RPT_MM ∧
        s.monthlyKey ≠ t.dkey)) ∧
    (Task.scan ∈ (tick_scheduler_exc noRaise f t).2 ↔
      (t.hour = SCAN_HH ∧ t.minute = SCAN_MM ∧ f.scan ≠ some (minuteKey t))) := by
  refine ⟨?_, ?_, ?_, ?_, ?_⟩
  · rw [pair_mem_iff, sched_tick_ev_scan]
    have hcond : ((predScan t && (s.scanKey != t.dkey)) = true) ↔
        (t.hour = SCAN_HH ∧ t.minute = SCAN_MM ∧ s.scanKey ≠ t.dkey) := by
      simp [predScan, Bool.and_eq_true, and_assoc]
    rw [← hcond]
    cases hb : (predScan t && (s.scanKey != t.dkey)) <;> simp [hb]
  · rw [pair_mem_iff, sched_tick_ev_daily]
    have hcond : ((predDaily t && (s.dailyKey != t.dkey)) = true) ↔
        (t.hour = DAILY_RPT_HH ∧ t.minute = DAILY_RPT_MM ∧ s.dailyKey ≠ t.dkey) := by
      simp [predDaily, Bool.and_eq_true, and_assoc]
    rw [← hcond]
    cases hb : (predDaily t && (s.dailyKey != t.dkey)) <;> simp [hb]
  · rw [pair_mem_iff, sched_tick_ev_weekly]
    have hcond : ((predWeekly t && (s.weeklyKey != t.dkey)) = true) ↔
        (t.weekday = 6 ∧ t.hour = WEEKLY_RPT_HH ∧ t.minute = WEEKLY_RPT_MM ∧
          s.weeklyKey ≠ t.dkey) := by
      simp [predWeekly, Bool.and_eq_true, and_assoc]
    rw [← hcond]
    cases hb : (predWeekly t && (s.weeklyKey != t.dkey)) <;> simp [hb]
  · rw [pair_mem_iff, sched_tick_ev_monthly]
    have hcond : ((predMonthly t && (s.monthlyKey != t.dkey)) = true) ↔
        (t.lastDayOfMonth = true ∧ t.hour = WEEKLY_RPT_HH ∧ t.minute = WEEKLY_RPT_MM ∧
          s.monthlyKey ≠ t.dkey) := by
      simp [predMonthly, Bool.and_eq_true, and_assoc]
    rw [← hcond]
    cases hb : (predMonthly t && (s.monthlyKey != t.dkey)) <;> simp [hb]
  · unfold tick_scheduler_exc
    by_cases h : ((t.hour == SCAN_HH) && (t.minute == SCAN_MM)
        && (f.scan != some (minuteKey t))) = true
    · rw [if_pos h, if_neg (by simp [noRaise])]
      rw [Bool.and_eq_true, Bool.and_eq_true] at h
      rw [mem_nTickDaily noRaise { f with scan := some (minuteKey t) } t [Task.scan]
        Task.scan (by simp) (by simp) (by simp)]
      simp only [List.mem_singleton, true_iff]
      refine ⟨by simpa using h.1.1, by simpa using h.1.2, by simpa using h.2⟩
    · rw [if_neg h]
      rw [mem_nTickDaily noRaise f t [] Task.scan (by simp) (by simp) (by simp)]
      simp only [List.not_mem_nil, false_iff]
      intro hcl
      apply h
      rw [Bool.and_eq_true, Bool.and_eq_true]
      refine ⟨⟨by simpa using hcl.1, by simpa using hcl.2.1⟩, by simpa using hcl.2.2⟩

/-- Witness for C2's amended theorem: at the trigger-minute tick with
fresh markers both schedulers fire the scan. -/
theorem C2_amended_due_check_witness :
    (Task.scan, tick0800) ∈ (sched_tick initSched tick0800).2 ∧
    Task.scan ∈ (tick_scheduler_exc noRaise initFlags tick0800).2 :=
  ⟨(C2_amended_due_check initSched initFlags tick0800).1.mpr (by decide),
   (C2_amended_due_check initSched initFlags tick0800).2.2.2.2.mpr (by decide)⟩

/-- C5 counterexample: in the second source's tick_scheduler the
sent-flag is assigned BEFORE the task's action is invoked, so on a tick
where the due scan's action raises, the flag is advanced to the period
key anyway, no task completes, and a later tick of the same period does
not retry — the claim says the marker is not advanced when the action
raises. -/
theorem C5_counterexample :
    (tick_scheduler_exc raiseScan initFlags tick0800).1.scan =
      some "2024-01-05:0800" ∧
    (tick_scheduler_exc raiseScan initFlags tick0800).2 = [] ∧
    (tick_scheduler_exc noRaise
      (tick_scheduler_exc raiseScan initFlags tick0800).1 tick0800).2 = [] := by
  decide

set_option maxHeartbeats 2000000 in
/-- C5 amended: bot.py's scheduler_loop does satisfy the claim — a task
whose action raises has its marker left unchanged (so it is retried on a
later tick of the period), and a task's marker moves only when the task's
action completed on that tick; the second source's tick_scheduler violates
it by assigning the flag before invoking the action (see the
counterexample). -/
theorem C5_amended_marker_after_completion (r : Task → Bool) (s : SchedState) (t : Tick) :
    (r Task.scan = true → (sched_tick_exc r s t).1.scanKey = s.scanKey) ∧
    (r Task.daily = true → (sched_tick_exc r s t).1.dailyKey = s.dailyKey) ∧
    (r Task.weekly = true → (sched_tick_exc r s t).1.weeklyKey = s.weeklyKey) ∧
    (r Task.monthly = true → (sched_tick_exc r s t).1.monthlyKey = s.monthlyKey) ∧
    ((sched_tick_exc r s t).1.scanKey ≠ s.scanKey →
      (Task.scan, t) ∈ (sched_tick_exc r s t).2) ∧
    ((sched_tick_exc r s t).1.dailyKey ≠ s.dailyKey →
      (Task.daily, t) ∈ (sched_tick_exc r s t).2) ∧
    ((sched_tick_exc r s t).1.weeklyKey ≠ s.weeklyKey →
      (Task.weekly, t) ∈ (sched_tick_exc r s t).2) ∧
    ((sched_tick_exc r s t).1.monthlyKey ≠ s.monthlyKey →
      (Task.monthly, t) ∈ (sched_tick_exc r s t).2) := by
  unfold sched_tick_exc tickDaily tickWeekly tickMonthly
  split_ifs <;> simp_all

/-- Witness for C5's amended theorem: with a raising scan action the scan
marker stays at its initial value; with no raise the moved marker comes
with a completed scan event. -/
theorem C5_amended_witness :
    (sched_tick_exc raiseScan initSched tick0800).1.scanKey = initSched.scanKey ∧
    (Task.scan, tick0800) ∈ (sched_tick_exc noRaise initSched tick0800).2 :=
  ⟨(C5_amended_marker_after_completion raiseScan initSched tick0800).1 rfl,
   (C5_amended_marker_after_completion noRaise initSched tick0800).2.2.2.2.1
     (by decide)⟩

/-! ### Odds maximum characterisation -/

/-- bestStep on a present best is binary max. -/
theorem bestStep_some (b k : ℚ) : bestStep (some b) k = some (max b k) := by
  show (if b < k then some k else some b) = some (max b k)
  by_cases h : b < k
  · rw [if_pos h, max_eq_right h.le]
  · rw [if_neg h, max_eq_left (not_lt.mp h)]

/-- Folding bestStep from a present best folds binary max. -/
theorem foldl_bestStep_some : ∀ (l : List ℚ) (b : ℚ),
    l.foldl bestStep (some b) = some (l.foldl max b) := by
  intro l
  induction l with
  | nil => intro b; rfl
  | cons a as ih =>
    intro b
    rw [List.foldl_cons, List.foldl_cons, bestStep_some, ih]

/-- A max fold lands on its seed or one of its elements. -/
theorem foldl_max_mem : ∀ (l : List ℚ) (b : ℚ), l.foldl max b ∈ b :: l := by
  intro l
  induction l with
  | nil => intro b; exact List.mem_singleton.mpr rfl
  | cons a as ih =>
    intro b
    rw [List.foldl_cons]
    rcases max_choice b a with hm | hm <;> rw [hm]
    · rcases List.mem_cons.mp (ih b) with h | h
      · rw [h]
        exact List.mem_cons_self _ _
      · exact List.mem_cons_of_mem _ (List.mem_cons_of_mem _ h)
    · rcases List.mem_cons.mp (ih a) with h | h
      · rw [h]
        exact List.mem_cons_of_mem _ (List.mem_cons_self _ _)
      · exact List.mem_cons_of_mem _ (List.mem_cons_of_mem _ h)

/-- A max fold dominates anything below its seed. -/
theorem le_foldl_max_init : ∀ (l : List ℚ) (b c : ℚ), b ≤ c → b ≤ l.foldl max c := by
  intro l
  induction l with
  | nil => intro b c h; exact h
  | cons a as ih =>
    intro b c h
    rw [List.foldl_cons]
    exact ih b (max c a) (h.trans (le_max_left c a))

/-- A max fold dominates every element. -/
theorem le_foldl_max_mem : ∀ (l : List ℚ) (b x : ℚ), x ∈ l → x ≤ l.foldl max b := by
  intro l
  induction l with
  | nil => intro b x hx; cases hx
  | cons a as ih =>
    intro b x hx
    rw [List.foldl_cons]
    rcases List.mem_cons.mp hx with rfl | hx2
    · exact le_foldl_max_init as x (max b x) (le_max_right b x)
    · exact ih (max b a) x hx2

/-- The value loop of get_odds_tb25 equals folding bestStep over the
value-level candidates, provided float("") fails. -/
theorem tb25_val_level (parse : String → Option ℚ) (hE : parse "" = none) :
    ∀ (vals : List OddValue) (acc : Option ℚ),
      vals.foldl (tb25_valStep parse) acc =
        (tb25_valCands parse vals).foldl bestStep acc := by
  intro vals
  induction vals with
  | nil => intro acc; rfl
  | cons v vs ih =>
    intro acc
    rw [List.foldl_cons]
    rcases hodd : v.odd with _ | o
    · have hstep : tb25_valStep parse acc v = acc := by
        simp [tb25_valStep, hodd]
      have hv : (if pyStrip (v.value.getD "") = "Over 2.5" then
          parse (v.odd.getD "") else none) = none := by
        rw [hodd]
        split <;> simp [hE]
      rw [hstep, ih]
      simp [tb25_valCands, List.filterMap_cons, hv]
    · by_cases hline : pyStrip (v.value.getD "") = "Over 2.5"
      · by_cases ho : o = ""
        · have hstep : tb25_valStep parse acc v = acc := by
            simp [tb25_valStep, hodd, ho]
          have hv : (if pyStrip (v.value.getD "") = "Over 2.5" then
              parse (v.odd.getD "") else none) = none := by
            rw [if_pos hline, hodd, ho]
            simpa using hE
          rw [hstep, ih]
          simp [tb25_valCands, List.filterMap_cons, hv]
        · cases hp : parse o with
          | none =>
            have hstep : tb25_valStep parse acc v = acc := by
              simp [tb25_valStep, hodd, hline, ho, hp]
            have hv : (if pyStrip (v.value.getD "") = "Over 2.5" then
                parse (v.odd.getD "") else none) = none := by
              rw [if_pos hline, hodd]
              simpa using hp
            rw [hstep, ih]
            simp [tb25_valCands, List.filterMap_cons, hv]
          | some k =>
            have hstep : tb25_valStep parse acc v = bestStep acc k := by
              simp [tb25_valStep, hodd, hline, ho, hp]
            have hv : (if pyStrip (v.value.getD "") = "Over 2.5" then
                parse (v.odd.getD "") else none) = some k := by
              rw [if_pos hline, hodd]
              simpa using hp
            rw [hstep, ih]
            simp [tb25_valCands, List.filterMap_cons, hv]
      · have hstep : tb25_valStep parse acc v = acc := by
          simp [tb25_valStep, hodd, hline]
        have hv : (if pyStrip (v.value.getD "") = "Over 2.5" then
            parse (v.odd.getD "") else none) = none := by
          rw [if_neg hline]
        rw [hstep, ih]
        simp [tb25_valCands, List.filterMap_cons, hv]

/-- The bet loop of get_odds_tb25 equals folding bestStep over the
flattened bet-level candidates. -/
theorem tb25_bet_level (parse : String → Option ℚ) (hE : parse "" = none) :
    ∀ (bets : List Bet) (acc : Option ℚ),
      bets.foldl (tb25_betStep parse) acc =
        (bets.flatMap (tb25_betCands parse)).foldl bestStep acc := by
  intro bets
  induction bets with
  | nil => intro acc; rfl
  | cons b bs ih =>
    intro acc
    rw [List.foldl_cons, List.flatMap_cons, List.foldl_append, ih]
    congr 1
    unfold tb25_betStep tb25_betCands
    split
    · exact tb25_val_level parse hE b.values acc
    · rfl

/-- The bookmaker loop of get_odds_tb25 equals folding bestStep over the
flattened bookmaker-level candidates. -/
theorem tb25_bm_level (parse : String → Option ℚ) (hE : parse "" = none) :
    ∀ (bms : List Bookmaker) (acc : Option ℚ),
      bms.foldl (tb25_bmStep parse) acc =
        (bms.flatMap (tb25_bmCands parse)).foldl bestStep acc := by
  intro bms
  induction bms with
  | nil => intro acc; rfl
  | cons bm bms2 ih =>
    intro acc
    rw [List.foldl_cons, List.flatMap_cons, List.foldl_append, ih]
    congr 1
    exact tb25_bet_level parse hE bm.bets acc

/-- get_odds_tb25 is the bestStep fold over all candidates. -/
theorem tb25_rows_level (parse : String → Option ℚ) (hE : parse "" = none)
    (rows : List OddsRow) :
    get_odds_tb25 parse rows = (tb25_candidates parse rows).foldl bestStep none := by
  unfold get_odds_tb25 tb25_candidates
  generalize (none : Option ℚ) = acc
  induction rows generalizing acc with
  | nil => rfl
  | cons row rows2 ih =>
    rw [List.foldl_cons, List.flatMap_cons, List.foldl_append, ih]
    congr 1
    exact tb25_bm_level parse hE row.bookmakers acc

/-- C10: get_odds_tb25 returns None exactly when no bookmaker's
Over/Under bet offers a parseable "Over 2.5" value, and otherwise returns
the maximum of those candidate prices — in particular a price actually
present in the response.  The single hypothesis is that Python float of
the empty string raises (parse "" = none), which covers the truthiness
test on the odd field. -/
theorem C10_get_odds_max (parse : String → Option ℚ) (rows : List OddsRow)
    (hE : parse "" = none) :
    (get_odds_tb25 parse rows = none ↔ tb25_candidates parse rows = []) ∧
    (∀ k : ℚ, get_odds_tb25 parse rows = some k →
      k ∈ tb25_candidates parse rows ∧ ∀ x ∈ tb25_candidates parse rows, x ≤ k) := by
  rw [tb25_rows_level parse hE rows]
  cases hc : tb25_candidates parse rows with
  | nil => simp
  | cons a as =>
    have hred : (a :: as).foldl bestStep none = some (as.foldl max a) := by
      rw [List.foldl_cons]
      show List.foldl bestStep (some a) as = _
      exact foldl_bestStep_some as a
    rw [hred]
    constructor
    · constructor
      · intro h
        cases h
      · intro h
        cases h
    · intro k hk
      have hk2 : as.foldl max a = k := Option.some.inj hk
      constructor
      · rw [← hk2]
        exact foldl_max_mem as a
      · intro x hx
        rw [← hk2]
        rcases List.mem_cons.mp hx with rfl | hx2
        · exact le_foldl_max_init as x x le_rfl
        · exact le_foldl_max_mem as a x hx2

/-- Witness for C10 at the concrete response: the returned price is the
maximum candidate, present in the response. -/
theorem C10_get_odds_max_witness :
    get_odds_tb25 parseW rowsW = some (3 : ℚ) ∧
    (3 : ℚ) ∈ tb25_candidates parseW rowsW ∧
    (2 : ℚ) ∈ tb25_candidates parseW rowsW ∧
    (2 : ℚ) ≤ (3 : ℚ) := by
  have hget : get_odds_tb25 parseW rowsW = some (3 : ℚ) := by decide
  have h := (C10_get_odds_max parseW rowsW (by decide)).2 3 hget
  exact ⟨hget, h.1, by decide, h.2 2 (by decide)⟩

end SignalBot
